import Mathlib

/-!
# Verification of the bofhound parsing / ACL-resolution core

This file gives a shallow embedding, in Lean 4, of the core components of the
bofhound repository (Python) and settles a list of claims about them:

* `BoundaryDetector` and the LDAP record state machines from
  `bofhound/parsers/types.py` and `bofhound/parsers/ldap_search_bof.py`;
* the Outflank C2 JSON line parser from `bofhound/parsers/outflankc2.py`;
* the object cache change detection from `bofhound/cache.py`;
* the ACL decoding / relationship resolution from
  `bofhound/ad/acl_worker.py` and `bofhound/ad/acl_processor.py`.

Python strings are modelled as `List Char` (for the parser components, where
prefix/concatenation reasoning is needed) or as Lean `String` (for the ACL and
cache components, where strings are only compared, split, and concatenated).
Python functions that can raise are embedded as `Except`-valued functions;
functions that cannot raise are plain functions.  Python dicts with insertion
order are modelled as association lists with update-in-place semantics.
-/

namespace Bofhound

/-! ## Python string primitives (over `List Char`)

Models of the Python `str` methods used by the parser components.  Python's
`str.strip()` with no argument removes ASCII/Unicode whitespace; the log lines
involved only ever contain the ASCII whitespace characters modelled here. -/

/-- Characters removed by Python `str.strip()` (ASCII whitespace). -/
def pyIsSpace (c : Char) : Bool :=
  c = ' ' || c = '\t' || c = '\n' || c = '\r' || c = '\x0b' || c = '\x0c'

/-- Remove leading whitespace (Python `str.lstrip()`). -/
def pyLStrip : List Char → List Char
  | [] => []
  | c :: cs => if pyIsSpace c then pyLStrip cs else c :: cs

/-- Remove trailing whitespace (Python `str.rstrip()`). -/
def pyRStrip (s : List Char) : List Char :=
  (pyLStrip s.reverse).reverse

/-- Python `str.strip()`. -/
def pyStrip (s : List Char) : List Char :=
  pyLStrip (pyRStrip s)

/-- Python `str.lower()` (ASCII; attribute names in the logs are ASCII). -/
def pyLower (s : List Char) : List Char :=
  s.map Char.toLower

end Bofhound

namespace Bofhound

/-! ## `BoundaryDetector` (bofhound/parsers/types.py)

```python
class BoundaryDetector:
    def __init__(self, boundary_pattern: str):
        self._boundary_pattern = boundary_pattern
        self._accumulated_chars = 0
        self._target_length = len(boundary_pattern)

    def process_line(self, line: str) -> BoundaryResult:
        if not line:
            return BoundaryResult.NOT_BOUNDARY
        remaining_pattern = self._boundary_pattern[self._accumulated_chars:]
        if remaining_pattern.startswith(line):
            self._accumulated_chars += len(line)
            if self._accumulated_chars == self._target_length:
                self._reset()
                return BoundaryResult.COMPLETE_BOUNDARY
            else:
                return BoundaryResult.PARTIAL_BOUNDARY
        else:
            return BoundaryResult.NOT_BOUNDARY
```

`_target_length` is set once to `len(boundary_pattern)` and the pattern is
never mutated, so it is rendered as `boundaryPattern.length`.  The mutation of
`_accumulated_chars` is rendered by returning the updated detector. -/

inductive BoundaryResult where
  | notBoundary
  | partialBoundary
  | completeBoundary
  | invalidBoundary
  deriving DecidableEq, Repr

structure BoundaryDetector where
  boundaryPattern : List Char
  accumulatedChars : Nat
  deriving DecidableEq, Repr

namespace BoundaryDetector

/-- `BoundaryDetector.__init__`. -/
def init (boundaryPattern : List Char) : BoundaryDetector :=
  { boundaryPattern := boundaryPattern, accumulatedChars := 0 }

/-- `BoundaryDetector.process_line`.  Returns the result together with the
updated detector state.  Note `remaining_pattern.startswith(line)` asks
whether `line` is a prefix of the remaining pattern. -/
def processLine (d : BoundaryDetector) (line : List Char) :
    BoundaryResult × BoundaryDetector :=
  if line = [] then
    (.notBoundary, d)
  else
    let remainingPattern := d.boundaryPattern.drop d.accumulatedChars
    if line.isPrefixOf remainingPattern then
      let acc := d.accumulatedChars + line.length
      if acc = d.boundaryPattern.length then
        (.completeBoundary, { d with accumulatedChars := 0 })
      else
        (.partialBoundary, { d with accumulatedChars := acc })
    else
      (.notBoundary, d)

/-- Fold a sequence of `process_line` calls, keeping only the final state. -/
def run (d : BoundaryDetector) (lines : List (List Char)) : BoundaryDetector :=
  lines.foldl (fun d line => (d.processLine line).2) d

/-- Fold a sequence of `process_line` calls, collecting the results. -/
def runResults : BoundaryDetector → List (List Char) → List BoundaryResult
  | _, [] => []
  | d, line :: rest =>
      let (r, d') := d.processLine line
      r :: runResults d' rest

end BoundaryDetector

end Bofhound

namespace Bofhound

/-! ## Python dicts as insertion-ordered association lists

Python `dict` preserves insertion order; assignment to an existing key keeps
its position.  `dictGet` is `d.get(k)` / `d[k]`-lookup, `dictSet` is
`d[k] = v`. -/

/-- Lookup (`k in d` / `d[k]`). -/
def dictGet {α β : Type} [DecidableEq α] (d : List (α × β)) (k : α) : Option β :=
  match d.find? (fun kv => kv.1 = k) with
  | some kv => some kv.2
  | none => none

/-- Assignment `d[k] = v`: update in place if the key exists, else append. -/
def dictSet {α β : Type} [DecidableEq α] (d : List (α × β)) (k : α) (v : β) :
    List (α × β) :=
  match d with
  | [] => [(k, v)]
  | (k', v') :: rest =>
      if k' = k then (k', v) :: rest else (k', v') :: dictSet rest k v

/-! ## Key/value splitting and the record accumulator (bofhound/parsers/types.py)

```python
def get_key_value(self, line:str) -> tuple[str, str]:
    parts = line.split(":", 1)
    key = parts[0].strip().lower()
    value = None
    if len(parts) > 1:
        value = parts[1].strip()
    return key, value
```
-/

/-- Python `line.split(sep, 1)` for a single-character separator: the part
before the first occurrence, and the part after it (if any). -/
def pySplitOnce (sep : Char) : List Char → List Char × Option (List Char)
  | [] => ([], none)
  | c :: cs =>
      if c = sep then ([], some cs)
      else
        let (before, after) := pySplitOnce sep cs
        (c :: before, after)

/-- `LdapRecordParser.get_key_value` (identical to
`LdapRecord._get_key_value` in ldap_search_bof.py). -/
def getKeyValue (line : List Char) : List Char × Option (List Char) :=
  let (p0, p1) := pySplitOnce ':' line
  (pyLower (pyStrip p0), p1.map pyStrip)

/-- Python truthiness of the `value` variable (`if value:`): `None` and the
empty string are falsy. -/
def optTruthy : Option (List Char) → Bool
  | none => false
  | some v => !v.isEmpty

/-- The local state of `LdapRecordParser._parse_lines_to_attributes`:
`break_in_previous_message`, `in_attribute_key`, `current_attribute`,
`attributes`. -/
structure AttrParseState where
  breakInPreviousMessage : Bool
  inAttributeKey : Bool
  currentAttribute : List Char
  attributes : List (List Char × List Char)
  deriving DecidableEq, Repr

/-- Initial accumulator state of `_parse_lines_to_attributes`. -/
def AttrParseState.init : AttrParseState :=
  { breakInPreviousMessage := false
    inAttributeKey := true
    currentAttribute := []
    attributes := [] }

/-- One iteration of the loop body of `_parse_lines_to_attributes`.
`attributes[current_attribute] += line` raises `KeyError` when the key is
absent, rendered as `.error ()`. -/
def attrStep (st : AttrParseState) (line : List Char) : Except Unit AttrParseState :=
  if pyStrip line = [] then
    .ok { st with breakInPreviousMessage := true }
  else
    let (key, value) := getKeyValue line
    if st.breakInPreviousMessage then
      if st.inAttributeKey then
        let cur := st.currentAttribute ++ key
        if optTruthy value then
          .ok { breakInPreviousMessage := false
                inAttributeKey := false
                currentAttribute := cur
                attributes := dictSet st.attributes cur (value.getD []) }
        else
          .ok { st with breakInPreviousMessage := false, currentAttribute := cur }
      else
        match dictGet st.attributes st.currentAttribute with
        | some v =>
            .ok { st with breakInPreviousMessage := false
                          attributes := dictSet st.attributes st.currentAttribute (v ++ line) }
        | none => .error ()
    else
      if optTruthy value then
        .ok { breakInPreviousMessage := false
              inAttributeKey := false
              currentAttribute := key
              attributes := dictSet st.attributes key (value.getD []) }
      else
        .ok { breakInPreviousMessage := false
              inAttributeKey := true
              currentAttribute := key
              attributes := st.attributes }

/-- `LdapRecordParser._parse_lines_to_attributes` (the base class
`_post_process_attributes` is the identity). -/
def parseLinesToAttributes (lines : List (List Char)) :
    Except Unit (List (List Char × List Char)) :=
  (lines.foldlM attrStep AttrParseState.init).map (·.attributes)

/-! ## `LdapRecordParser` (bofhound/parsers/types.py)

The skip patterns and the end-of-tool-output pattern are compiled regexes in
Python; they are modelled as boolean matchers on lines (the base class has an
empty skip list and no end pattern; subclasses install their own). -/

inductive ParsingState where
  | waitingForLdapObject
  | inLdapObject
  deriving DecidableEq, Repr

structure LdapRecordParser where
  currentRecordLines : List (List Char)
  ldapRecords : List (List (List Char × List Char))
  parsingState : ParsingState
  boundaryDetector : BoundaryDetector
  skippablePatterns : List (List Char → Bool)
  endOfToolOutputPattern : Option (List Char → Bool)

namespace LdapRecordParser

/-- `LdapRecordParser.__init__`. -/
def init (boundaryPattern : List Char) : LdapRecordParser :=
  { currentRecordLines := []
    ldapRecords := []
    parsingState := .waitingForLdapObject
    boundaryDetector := .init boundaryPattern
    skippablePatterns := []
    endOfToolOutputPattern := none }

/-- `LdapRecordParser.should_skip_line`. -/
def shouldSkipLine (p : LdapRecordParser) (line : List Char) : Bool :=
  p.skippablePatterns.any (fun m => m line)

/-- `LdapRecordParser._is_end_of_tool_output`. -/
def isEndOfToolOutput (p : LdapRecordParser) (line : List Char) : Bool :=
  match p.endOfToolOutputPattern with
  | none => false
  | some m => m line

/-- `LdapRecordParser._save_current_record`: build the attribute dict from the
accumulated lines and append it if non-empty (`if attributes:`). -/
def saveCurrentRecord (p : LdapRecordParser) : Except Unit LdapRecordParser := do
  let attributes ← parseLinesToAttributes p.currentRecordLines
  .ok { p with
        ldapRecords :=
          if attributes.isEmpty then p.ldapRecords else p.ldapRecords ++ [attributes]
        currentRecordLines := [] }

/-- `LdapRecordParser._handle_boundary_line`. -/
def handleBoundaryLine (p : LdapRecordParser) : Except Unit LdapRecordParser :=
  if p.parsingState ≠ .inLdapObject then
    .ok { p with parsingState := .inLdapObject }
  else
    p.saveCurrentRecord

/-- `LdapRecordParser._handle_end_of_tool_output`. -/
def handleEndOfToolOutput (p : LdapRecordParser) : Except Unit LdapRecordParser := do
  let p' ←
    if p.parsingState = .inLdapObject then p.saveCurrentRecord else .ok p
  .ok { p' with parsingState := .waitingForLdapObject }

/-- `LdapRecordParser._handle_content_line`. -/
def handleContentLine (p : LdapRecordParser) (line : List Char) : LdapRecordParser :=
  if p.parsingState = .inLdapObject then
    { p with currentRecordLines := p.currentRecordLines ++ [line] }
  else
    p

/-- `LdapRecordParser.process_line`. -/
def processLine (p : LdapRecordParser) (lineRaw : List Char) :
    Except Unit LdapRecordParser :=
  let line := pyStrip lineRaw
  let (boundary, det) := p.boundaryDetector.processLine line
  let p := { p with boundaryDetector := det }
  match boundary with
  | .completeBoundary => p.handleBoundaryLine
  | .partialBoundary => .ok p
  | .notBoundary | .invalidBoundary =>
      if p.isEndOfToolOutput line then
        p.handleEndOfToolOutput
      else if p.shouldSkipLine line then
        .ok p
      else
        .ok (p.handleContentLine line)

/-- `LdapRecordParser.get_results`. -/
def getResults (p : LdapRecordParser) :
    Except Unit (List (List (List Char × List Char))) :=
  if p.currentRecordLines.isEmpty then
    .ok p.ldapRecords
  else do
    let p' ← p.saveCurrentRecord
    .ok p'.ldapRecords

end LdapRecordParser

end Bofhound

namespace Bofhound

/-! ## `LdapRecord` and `StreamingLdapParser` (bofhound/parsers/ldap_search_bof.py)

`LdapRecord.add_attribute_line` is the same accumulator algorithm as
`_parse_lines_to_attributes`, expressed with an explicit state enum and an
`Optional` current attribute (`self.current_attribute` starts as `None`;
`self.current_attribute += key` on `None` raises `TypeError`, rendered as
`.error ()`, as is `attributes[self.current_attribute] += line` on a missing
key). -/

inductive LdapRecordState where
  | inAttributeKey
  | inAttributeValue
  deriving DecidableEq, Repr

structure LdapRecord where
  attributes : List (List Char × List Char)
  currentAttribute : Option (List Char)
  state : LdapRecordState
  breakInPreviousMessage : Bool
  deriving DecidableEq, Repr

namespace LdapRecord

/-- `LdapRecord.__init__`. -/
def init : LdapRecord :=
  { attributes := []
    currentAttribute := none
    state := .inAttributeKey
    breakInPreviousMessage := false }

/-- `LdapRecord.add_attribute_line`. -/
def addAttributeLine (r : LdapRecord) (line : List Char) : Except Unit LdapRecord :=
  if pyStrip line = [] then
    .ok { r with breakInPreviousMessage := true }
  else
    let (key, value) := getKeyValue line
    if r.breakInPreviousMessage then
      if r.state = .inAttributeKey then
        match r.currentAttribute with
        | none => .error ()
        | some cur0 =>
            let cur := cur0 ++ key
            if optTruthy value then
              .ok { r with breakInPreviousMessage := false
                           currentAttribute := some cur
                           attributes := dictSet r.attributes cur (value.getD [])
                           state := .inAttributeValue }
            else
              .ok { r with breakInPreviousMessage := false, currentAttribute := some cur }
      else
        match r.currentAttribute with
        | none => .error ()
        | some cur =>
            match dictGet r.attributes cur with
            | some v =>
                .ok { r with breakInPreviousMessage := false
                             attributes := dictSet r.attributes cur (v ++ line) }
            | none => .error ()
    else
      if optTruthy value then
        .ok { r with currentAttribute := some key
                     attributes := dictSet r.attributes key (value.getD [])
                     state := .inAttributeValue }
      else
        .ok { r with currentAttribute := some key, state := .inAttributeKey }

/-- `LdapRecord.to_dict`. -/
def toDict (r : LdapRecord) : List (List Char × List Char) :=
  r.attributes

/-- `LdapRecord.is_empty`. -/
def isEmptyRecord (r : LdapRecord) : Bool :=
  r.attributes.isEmpty

/-- `LdapRecord.from_lines`. -/
def fromLines (lines : List (List Char)) : Except Unit LdapRecord :=
  lines.foldlM addAttributeLine init

end LdapRecord

/-! ### Line classifiers of `StreamingLdapParser`

The two compiled regexes are rendered as concrete character-level matchers:

* `new_message_pattern = r'^\d{2}\/\d{2} \d{2}:\d{2}:\d{2} UTC \[output\]$'`
* `retrieved_pattern   = r'^(R|r)etr(e|i)(e|i)ved \d+ results?'` (an
  `re.match`, i.e. anchored at the start only; the optional `s` and anything
  after it are irrelevant to whether the pattern matches). -/

/-- `StreamingLdapParser._is_timestamp_line`. -/
def isTimestampLine (s : List Char) : Bool :=
  match s with
  | [a, b, '/', c, d, ' ', e, f, ':', g, h, ':', i, j, ' ',
     'U', 'T', 'C', ' ', '[', 'o', 'u', 't', 'p', 'u', 't', ']'] =>
      a.isDigit && b.isDigit && c.isDigit && d.isDigit && e.isDigit &&
      f.isDigit && g.isDigit && h.isDigit && i.isDigit && j.isDigit
  | _ => false

/-- After `\d+` the literal ` result` must follow (one digit has already been
consumed by the caller; further digits are consumed here). -/
def retrievedTail : List Char → Bool
  | [] => false
  | c :: cs =>
      if c.isDigit then retrievedTail cs
      else (' ' :: ['r', 'e', 's', 'u', 'l', 't']).isPrefixOf (c :: cs)

/-- `StreamingLdapParser._is_retrieved_line`. -/
def isRetrievedLine (s : List Char) : Bool :=
  match s with
  | c1 :: 'e' :: 't' :: 'r' :: c2 :: c3 :: 'v' :: 'e' :: 'd' :: ' ' :: rest =>
      (c1 = 'R' || c1 = 'r') && (c2 = 'e' || c2 = 'i') && (c3 = 'e' || c3 = 'i') &&
      (match rest with
       | d :: ds => d.isDigit && retrievedTail (d :: ds)
       | [] => false)
  | _ => false

/-- `StreamingLdapParser._is_boundary_line`: `set(line.strip())` has exactly
one element and it is `'-'` (any positive number of dashes). -/
def isBoundaryLine (line : List Char) : Bool :=
  let s := pyStrip line
  !s.isEmpty && s.all (fun c => c = '-')

/-- `StreamingLdapParser._is_received_output_line`. -/
def isReceivedOutputLine (line : List Char) : Bool :=
  pyStrip line = "received output:".toList

structure StreamingLdapParser where
  state : ParsingState
  currentRecord : List (List Char)
  ldapRecords : List LdapRecord
  deriving Repr

namespace StreamingLdapParser

/-- `StreamingLdapParser.__init__`. -/
def init : StreamingLdapParser :=
  { state := .waitingForLdapObject, currentRecord := [], ldapRecords := [] }

/-- `StreamingLdapParser._handle_boundary_line`: a first boundary opens the
object; while in an object, each boundary appends one record built from the
accumulated lines — even if the record is empty — and clears the
accumulator. -/
def handleBoundaryLine (p : StreamingLdapParser) : Except Unit StreamingLdapParser :=
  if p.state ≠ .inLdapObject then
    .ok { p with state := .inLdapObject }
  else do
    let rec ← LdapRecord.fromLines p.currentRecord
    .ok { p with ldapRecords := p.ldapRecords ++ [rec], currentRecord := [] }

/-- `StreamingLdapParser.finalize`. -/
def finalize (p : StreamingLdapParser) : Except Unit StreamingLdapParser :=
  if p.currentRecord.isEmpty then
    .ok p
  else do
    let rec ← LdapRecord.fromLines p.currentRecord
    .ok { p with ldapRecords := p.ldapRecords ++ [rec], currentRecord := [] }

/-- `StreamingLdapParser._handle_retrieved_results_line`. -/
def handleRetrievedResultsLine (p : StreamingLdapParser) :
    Except Unit StreamingLdapParser := do
  let p' ← p.finalize
  .ok { p' with state := .waitingForLdapObject }

/-- `StreamingLdapParser._handle_content_line`. -/
def handleContentLine (p : StreamingLdapParser) (line : List Char) :
    StreamingLdapParser :=
  if p.state = .inLdapObject then
    { p with currentRecord := p.currentRecord ++ [line] }
  else
    p

/-- `StreamingLdapParser.process_line`. -/
def processLine (p : StreamingLdapParser) (lineRaw : List Char) :
    Except Unit StreamingLdapParser :=
  let line := pyStrip lineRaw
  if isTimestampLine line || isReceivedOutputLine line then
    .ok p
  else if isBoundaryLine line then
    p.handleBoundaryLine
  else if isRetrievedLine line then
    p.handleRetrievedResultsLine
  else
    .ok (p.handleContentLine line)

/-- `StreamingLdapParser.get_records`: empty records are excluded here, at
emission. -/
def getRecords (p : StreamingLdapParser) : List (List (List Char × List Char)) :=
  (p.ldapRecords.filter (fun r => !r.isEmptyRecord)).map LdapRecord.toDict

end StreamingLdapParser

end Bofhound

namespace Bofhound

/-! ## JSON values and `json.loads` (used by bofhound/parsers/outflankc2.py)

A model of the Python `json` module sufficient for the Outflank C2 envelope
lines: values are null/bool/int/string/array/object (floats are not needed by
any theorem below and are rejected by this model), `json.loads` is a
whitespace-tolerant recursive-descent parser that fails (`ValueError`) exactly
when the input is not a single well-formed value. -/

inductive PyJson where
  | null
  | bool (b : Bool)
  | num (n : Int)
  | str (s : List Char)
  | arr (xs : List PyJson)
  | obj (fields : List (List Char × PyJson))

/-- JSON whitespace. -/
def jsonWs (c : Char) : Bool :=
  c = ' ' || c = '\t' || c = '\n' || c = '\r'

/-- Skip JSON whitespace. -/
def skipWs (s : List Char) : List Char :=
  s.dropWhile jsonWs

/-- Numeric value of a decimal digit character. -/
def charDigitVal (c : Char) : Nat :=
  c.toNat - '0'.toNat

/-- Hexadecimal digit test. -/
def charIsHex (c : Char) : Bool :=
  c.isDigit || ('a' ≤ c && c ≤ 'f') || ('A' ≤ c && c ≤ 'F')

/-- Numeric value of a hexadecimal digit character. -/
def charHexVal (c : Char) : Nat :=
  if c.isDigit then charDigitVal c
  else if 'a' ≤ c && c ≤ 'f' then c.toNat - 'a'.toNat + 10
  else c.toNat - 'A'.toNat + 10

/-- Parse the remainder of a JSON string literal (the opening quote has been
consumed). -/
def parseJsonString : List Char → Except Unit (List Char × List Char)
  | [] => .error ()
  | '"' :: rest => .ok ([], rest)
  | '\\' :: e :: rest =>
      let cont (c : Char) : Except Unit (List Char × List Char) := do
        let (s, r) ← parseJsonString rest
        .ok (c :: s, r)
      match e with
      | '"' => cont '"'
      | '\\' => cont '\\'
      | '/' => cont '/'
      | 'n' => cont '\n'
      | 't' => cont '\t'
      | 'r' => cont '\r'
      | 'b' => cont '\x08'
      | 'f' => cont '\x0c'
      | 'u' =>
          match rest with
          | h1 :: h2 :: h3 :: h4 :: rest' =>
              if charIsHex h1 && charIsHex h2 && charIsHex h3 && charIsHex h4 then do
                let n := ((charHexVal h1 * 16 + charHexVal h2) * 16 + charHexVal h3) * 16
                         + charHexVal h4
                let (s, r) ← parseJsonString rest'
                .ok (Char.ofNat n :: s, r)
              else .error ()
          | _ => .error ()
      | _ => .error ()
  | c :: rest => do
      let (s, r) ← parseJsonString rest
      .ok (c :: s, r)

/-- Parse a (possibly signed) JSON integer. -/
def parseJsonNumber (s : List Char) : Except Unit (PyJson × List Char) :=
  let (neg, s') := match s with
    | '-' :: rest => (true, rest)
    | _ => (false, s)
  let digits := s'.takeWhile Char.isDigit
  let rest := s'.dropWhile Char.isDigit
  if digits.isEmpty then .error ()
  else
    let n : Nat := digits.foldl (fun acc c => acc * 10 + charDigitVal c) 0
    .ok (.num (if neg then -(n : Int) else (n : Int)), rest)

mutual

/-- Recursive-descent JSON value parser; `fuel` bounds nesting depth. -/
def parseJsonValue (fuel : Nat) (s : List Char) : Except Unit (PyJson × List Char) :=
  match fuel with
  | 0 => .error ()
  | fuel + 1 =>
    match skipWs s with
    | 't' :: 'r' :: 'u' :: 'e' :: rest => .ok (.bool true, rest)
    | 'f' :: 'a' :: 'l' :: 's' :: 'e' :: rest => .ok (.bool false, rest)
    | 'n' :: 'u' :: 'l' :: 'l' :: rest => .ok (.null, rest)
    | '"' :: rest => do
        let (str, r) ← parseJsonString rest
        .ok (.str str, r)
    | '[' :: rest =>
        (match skipWs rest with
         | ']' :: r => .ok (.arr [], r)
         | _ => do
             let (xs, r) ← parseJsonArrayItems fuel rest
             .ok (.arr xs, r))
    | '{' :: rest =>
        (match skipWs rest with
         | '}' :: r => .ok (.obj [], r)
         | _ => do
             let (fs, r) ← parseJsonObjectItems fuel rest
             .ok (.obj fs, r))
    | c :: rest =>
        if c = '-' || c.isDigit then parseJsonNumber (c :: rest) else .error ()
    | [] => .error ()

/-- Comma-separated array items followed by `]`. -/
def parseJsonArrayItems (fuel : Nat) (s : List Char) :
    Except Unit (List PyJson × List Char) :=
  match fuel with
  | 0 => .error ()
  | fuel + 1 => do
    let (v, r) ← parseJsonValue fuel s
    match skipWs r with
    | ',' :: r' => do
        let (vs, r'') ← parseJsonArrayItems fuel r'
        .ok (v :: vs, r'')
    | ']' :: r' => .ok ([v], r')
    | _ => .error ()

/-- Comma-separated `"key": value` members followed by `}`. -/
def parseJsonObjectItems (fuel : Nat) (s : List Char) :
    Except Unit (List (List Char × PyJson) × List Char) :=
  match fuel with
  | 0 => .error ()
  | fuel + 1 =>
    match skipWs s with
    | '"' :: rest => do
        let (key, r) ← parseJsonString rest
        match skipWs r with
        | ':' :: r' => do
            let (v, r'') ← parseJsonValue fuel r'
            match skipWs r'' with
            | ',' :: r3 => do
                let (fs, r4) ← parseJsonObjectItems fuel r3
                .ok ((key, v) :: fs, r4)
            | '}' :: r3 => .ok ([(key, v)], r3)
            | _ => .error ()
        | _ => .error ()
    | _ => .error ()

end

/-- `json.loads`: parse one value and require only whitespace after it. -/
def jsonLoads (s : List Char) : Except Unit PyJson := do
  let (v, rest) ← parseJsonValue (s.length + 1) s
  if skipWs rest = [] then .ok v else .error ()

/-- `j[k]` on a JSON value: `KeyError` when the key is absent, `TypeError`
when the value is not an object. -/
def PyJson.getItem : PyJson → List Char → Except Unit PyJson
  | .obj fs, k =>
      match dictGet fs k with
      | some v => .ok v
      | none => .error ()
  | _, _ => .error ()

/-- `.lower()` / `.splitlines()` require a string (`AttributeError`
otherwise). -/
def PyJson.asStr : PyJson → Except Unit (List Char)
  | .str s => .ok s
  | _ => .error ()

/-- A JSON value compared with a Python string via `==`. -/
def PyJson.eqStr : PyJson → List Char → Bool
  | .str s, t => s = t
  | _, _ => false

/-- Python `line.split(sep, 1)` for a multi-character separator: the part
before the first occurrence of `sep` and, when `sep` occurs, the part after
it. -/
def pySplitOnceSub (sep : List Char) : List Char → List Char × Option (List Char)
  | [] => ([], none)
  | c :: cs =>
      if sep.isPrefixOf (c :: cs) then ([], some ((c :: cs).drop sep.length))
      else
        let (before, after) := pySplitOnceSub sep cs
        (c :: before, after)

/-- Python `str.splitlines()` (over `\n`, `\r\n` and `\r`; no trailing empty
line for a trailing terminator). -/
def pySplitLines : List Char → List (List Char) :=
  go []
where
  go : List Char → List Char → List (List Char)
  | acc, [] => if acc.isEmpty then [] else [acc.reverse]
  | acc, '\n' :: rest => acc.reverse :: go [] rest
  | acc, '\r' :: '\n' :: rest => acc.reverse :: go [] rest
  | acc, '\r' :: rest => acc.reverse :: go [] rest
  | acc, c :: rest => go (c :: acc) rest

/-! ## `OutflankC2JsonParser.process_line` (bofhound/parsers/outflankc2.py)

```python
def process_line(self, line: str) -> None:
    bofname = 'ldapsearch'
    event_json = json.loads(line.split('UTC ', 1)[1])
    if (event_json['event_type'] == 'task_response'
        and event_json['task']['name'].lower() == bofname):
        response_lines = event_json['task']['response']
        for response_line in response_lines.splitlines():
            super().process_line(response_line)
```

There is no `try`/`except`: the `[1]` index (`IndexError` when `'UTC '` does
not occur in the line), `json.loads` (`ValueError` on malformed JSON) and the
`[...]` key accesses (`KeyError`/`TypeError`) all propagate to the caller,
rendered as `.error ()`.

Modelled from the spec: the delegate `super().process_line` —
`LdapSearchBofParser.process_line`, the shared per-line LDAP state machine the
Outflank variant wraps — is exercised by this repository's tests but its body
is not part of this source snapshot; per the spec (§4.3/§9) the variant
delegates each extracted payload line to the shared streaming LDAP state
machine, modelled here by `StreamingLdapParser.processLine`. -/

structure OutflankC2JsonParser where
  inner : StreamingLdapParser

/-- `OutflankC2JsonParser.process_line`. -/
def OutflankC2JsonParser.processLine (p : OutflankC2JsonParser) (line : List Char) :
    Except Unit OutflankC2JsonParser := do
  let (_, afterSep) := pySplitOnceSub "UTC ".toList line
  let payload ←
    match afterSep with
    | some x => Except.ok x
    | none => Except.error ()
  let eventJson ← jsonLoads payload
  let eventType ← eventJson.getItem "event_type".toList
  if eventType.eqStr "task_response".toList then do
    let task ← eventJson.getItem "task".toList
    let nameJson ← task.getItem "name".toList
    let name ← nameJson.asStr
    if pyLower name = "ldapsearch".toList then do
      let responseJson ← task.getItem "response".toList
      let response ← responseJson.asStr
      let inner ← (pySplitLines response).foldlM StreamingLdapParser.processLine p.inner
      .ok ⟨inner⟩
    else
      .ok p
  else
    .ok p

end Bofhound

namespace Bofhound

/-! ## `ObjectCache` (bofhound/cache.py)

The SQLite `objects` table has `PRIMARY KEY (sid, dn)` and is written with
`INSERT OR REPLACE`, so it is modelled as an association list keyed by
`(sid, dn)`.  Strings on this side of the code are only compared, split and
concatenated, so Lean `String` is used.

`_hash_object` MD5-hashes the canonical string
`'|'.join(f"{key}:{value}" for sorted non-volatile keys)`; only equality of
digests is ever consumed, so the digest is modelled by the canonical string
itself (MD5 is a fixed injective-for-all-practical-purposes encoding applied
on top; values here are text, so the bytes-decoding branch is the
identity). -/

/-- Python `str.lower()`. -/
def pyStrLower (s : String) : String :=
  ⟨s.data.map Char.toLower⟩

/-- Python `str.upper()`. -/
def pyStrUpper (s : String) : String :=
  ⟨s.data.map Char.toUpper⟩

/-- Python `<` on strings: code-point lexicographic. -/
def pyCharsLe : List Char → List Char → Bool
  | [], _ => true
  | _ :: _, [] => false
  | a :: as, b :: bs =>
      if a < b then true
      else if a = b then pyCharsLe as bs
      else false

/-- Python `<=` on strings. -/
def pyStrLe (a b : String) : Bool :=
  pyCharsLe a.data b.data

/-- Python `str.startswith`. -/
def pyStartsWith (s pre : String) : Bool :=
  pre.data.isPrefixOf s.data

/-- Python `sep.join(xs)`. -/
def pyJoin (sep : String) (xs : List String) : String :=
  ⟨List.intercalate sep.data (xs.map String.data)⟩

/-- Python `s.split(sep)` for a non-empty separator, on character lists
(`fuel` bounds the scan; it is instantiated with the string length, which
always suffices). -/
def pySplitCharsAux (sep : List Char) : Nat → List Char → List Char → List (List Char)
  | 0, acc, rest => [acc.reverse ++ rest]
  | _ + 1, acc, [] => [acc.reverse]
  | fuel + 1, acc, c :: cs =>
      if sep.isPrefixOf (c :: cs) then
        acc.reverse :: pySplitCharsAux sep fuel [] ((c :: cs).drop sep.length)
      else
        pySplitCharsAux sep fuel (c :: acc) cs

/-- Python `s.split(sep)`. -/
def pySplitOn (sep s : String) : List String :=
  (pySplitCharsAux sep.data (s.data.length + 1) [] s.data).map fun cs => ⟨cs⟩

/-- Python `s.replace(old, new)` (left-to-right, non-overlapping; `old` is
non-empty at every call site). -/
def pyReplaceAux (old new : List Char) : Nat → List Char → List Char
  | 0, rest => rest
  | _ + 1, [] => []
  | fuel + 1, c :: cs =>
      if old.isPrefixOf (c :: cs) then
        new ++ pyReplaceAux old new fuel ((c :: cs).drop old.length)
      else
        c :: pyReplaceAux old new fuel cs

/-- Python `s.replace(old, new)`. -/
def pyReplace (s old new : String) : String :=
  ⟨pyReplaceAux old.data new.data (s.data.length + 1) s.data⟩

/-- Insert into a sorted list (Python string order is code-point
lexicographic). -/
def insertSorted (x : String) : List String → List String
  | [] => [x]
  | y :: ys => if pyStrLe x y then x :: y :: ys else y :: insertSorted x ys

/-- Python `sorted()` on a list of (distinct) strings. -/
def pySorted (xs : List String) : List String :=
  xs.foldr insertSorted []

/-- The fixed volatile-attribute exclusion set of `ObjectCache._hash_object`. -/
def excludeAttrs : List String :=
  ["whencreated", "whenchanged", "usnchanged", "usncreated",
   "dscorepropagationdata", "lastlogon", "lastlogontimestamp",
   "badpasswordtime", "logoncount"]

/-- `ObjectCache._hash_object`: the canonical fingerprint string over all
attributes whose lower-cased name is not in the volatile exclusion set,
iterated in sorted key order. -/
def hashObject (obj : List (String × String)) : String :=
  let keys := pySorted (obj.map (·.1))
  let items := keys.filterMap (fun key =>
    if excludeAttrs.contains (pyStrLower key) then none
    else (dictGet obj key).map (fun value => key ++ ":" ++ value))
  pyJoin "|" items

/-- One row of the `objects` table (the pickled payload, timestamp and source
file play no role in change detection and are omitted). -/
structure CacheRecord where
  objectType : String
  attrHash : String
  deriving DecidableEq, Repr

/-- The `objects` table of `ObjectCache`, keyed by `(sid, dn)`. -/
structure ObjectCache where
  objects : List ((String × String) × CacheRecord)
  deriving DecidableEq, Repr

/-- A BloodHound object as consumed by `ObjectCache.store_object` and the ACL
processors: `ObjectIdentifier`, `Properties`, `_entry_type`, `RawAces`.
A `None` identifier / `None` RawAces is modelled by `""` (the code only ever
tests their truthiness, under which `None` and `''` coincide). -/
structure BHObject where
  objectIdentifier : String
  properties : List (String × String)
  entryType : String
  rawAces : String
  deriving DecidableEq, Repr

namespace ObjectCache

/-- `ObjectCache.get_cached_object` in the form used by
`get_changed_objects` (both `sid` and `dn` supplied). -/
def getCachedObject (c : ObjectCache) (sid dn : String) : Option CacheRecord :=
  dictGet c.objects (sid, dn)

/-- `ObjectCache.store_object` (`INSERT OR REPLACE` keyed by `(sid, dn)`;
`obj.ObjectIdentifier if obj.ObjectIdentifier else ''` is the identity under
the `""`-for-`None` convention). -/
def storeObject (c : ObjectCache) (obj : BHObject) : ObjectCache :=
  let sid := obj.objectIdentifier
  let dn := (dictGet obj.properties "distinguishedname").getD ""
  let attrHash := hashObject obj.properties
  { objects := dictSet c.objects (sid, dn) ⟨obj.entryType, attrHash⟩ }

/-- `ObjectCache.get_changed_objects`.  Note: the source computes
`new_hash = self._hash_object(ldap_obj)` for each submitted object but never
compares it with the stored `attr_hash`; an object is kept iff no cache row
exists for its `(objectsid, upper(distinguishedname))` key. -/
def getChangedObjects (c : ObjectCache) (ldapObjects : List (List (String × String))) :
    List (List (String × String)) :=
  ldapObjects.filter (fun ldapObj =>
    let sid := (dictGet ldapObj "objectsid").getD ""
    let dn := pyStrUpper ((dictGet ldapObj "distinguishedname").getD "")
    let _newHash := hashObject ldapObj
    (getCachedObject c sid dn).isNone)

end ObjectCache

end Bofhound

namespace Bofhound

/-! ## `base64.b64decode` (Python standard library model)

`base64.b64decode` with default `validate=False` discards characters outside
the base64 alphabet, then requires the remaining length (padding included) to
be a multiple of 4 (`binascii.Error` otherwise, rendered `.error ()`), and
decodes 4-character groups to 3 bytes (padding `=`/`==` only in the final
group). -/

/-- Base64 alphabet membership. -/
def isB64Char (c : Char) : Bool :=
  ('A' ≤ c && c ≤ 'Z') || ('a' ≤ c && c ≤ 'z') || c.isDigit || c = '+' || c = '/'

/-- Value of a base64 alphabet character. -/
def b64Val (c : Char) : Nat :=
  if 'A' ≤ c && c ≤ 'Z' then c.toNat - 'A'.toNat
  else if 'a' ≤ c && c ≤ 'z' then c.toNat - 'a'.toNat + 26
  else if c.isDigit then c.toNat - '0'.toNat + 52
  else if c = '+' then 62
  else 63

/-- Decode 4-character groups; padding is only legal in the final group. -/
def b64DecodeGroups : List Char → Except Unit (List Nat)
  | [] => .ok []
  | a :: b :: c :: d :: rest =>
      if isB64Char a && isB64Char b then
        if c = '=' && d = '=' && rest.isEmpty then
          .ok [(b64Val a * 4 + b64Val b / 16) % 256]
        else if isB64Char c && d = '=' && rest.isEmpty then
          let n := (b64Val a * 2 ^ 12 + b64Val b * 2 ^ 6 + b64Val c) / 4
          .ok [n / 256 % 256, n % 256]
        else if isB64Char c && isB64Char d then do
          let n := b64Val a * 2 ^ 18 + b64Val b * 2 ^ 12 + b64Val c * 2 ^ 6 + b64Val d
          let tail ← b64DecodeGroups rest
          .ok ([n / 2 ^ 16, n / 2 ^ 8 % 256, n % 256] ++ tail)
        else .error ()
      else .error ()
  | _ => .error ()

/-- `base64.b64decode` on text input. -/
def b64decode (s : String) : Except Unit (List Nat) :=
  let cs := s.data.filter (fun c => isB64Char c || c = '=')
  if cs.length % 4 = 0 then b64DecodeGroups cs else .error ()

/-! ## Binary security-descriptor parsing

Model of the external BloodHound.py `SecurityDescriptor` / `ACL` / `ACE`
classes (`bloodhound/enumeration/acls.py`) as used by this repository: the
fixed binary layout of `SECURITY_DESCRIPTOR` (20-byte header with control
flags and owner/group/SACL/DACL offsets), `LdapSid` and an ACE list.  Reads
past the end of the buffer (`struct.unpack` on short data) are `.error ()`.
Only ACE types 0x00 (`ACCESS_ALLOWED_ACE`) and 0x05
(`ACCESS_ALLOWED_OBJECT_ACE`) carry decoded bodies; other types are retained
with their type tag only (the resolver ignores them).  Binary GUIDs are
rendered in impacket's `bin_to_string` form (upper-case canonical text);
binary GUID equality coincides with equality of these strings. -/

/-- Read `n` bytes at `pos` (`struct.unpack` on `fh.read(n)`). -/
def readBytes (data : List Nat) (pos n : Nat) : Except Unit (List Nat) :=
  if pos + n ≤ data.length then .ok ((data.drop pos).take n) else .error ()

/-- Little-endian value of a byte list. -/
def leVal : List Nat → Nat
  | [] => 0
  | b :: rest => b + 256 * leVal rest

/-- Big-endian value of a byte list. -/
def beVal (bs : List Nat) : Nat :=
  bs.foldl (fun acc b => acc * 256 + b) 0

/-- Upper-case hexadecimal rendering of `n`, zero-padded to `width` digits. -/
def natToHex (n width : Nat) : String :=
  let hexDigit (d : Nat) : Char :=
    if d < 10 then Char.ofNat ('0'.toNat + d) else Char.ofNat ('A'.toNat + d - 10)
  let rec go (n w : Nat) (acc : List Char) : List Char :=
    match w with
    | 0 => acc
    | w + 1 => go (n / 16) w (hexDigit (n % 16) :: acc)
  ⟨go n width []⟩

/-- impacket `bin_to_string`: 16 GUID bytes to upper-case canonical text
(mixed-endian: the first three fields are little-endian). -/
def guidBinToString (bs : List Nat) : String :=
  let d1 := leVal (bs.take 4)
  let d2 := leVal ((bs.drop 4).take 2)
  let d3 := leVal ((bs.drop 6).take 2)
  let d4 := beVal ((bs.drop 8).take 2)
  let d5 := beVal ((bs.drop 10).take 2)
  let d6 := beVal ((bs.drop 12).take 4)
  natToHex d1 8 ++ "-" ++ natToHex d2 4 ++ "-" ++ natToHex d3 4 ++ "-" ++
    natToHex d4 4 ++ "-" ++ natToHex d5 4 ++ natToHex d6 8

/-- Parse `count` little-endian 32-bit sub-authorities. -/
def parseSubAuths (data : List Nat) (pos : Nat) : Nat → Except Unit (List Nat)
  | 0 => .ok []
  | n + 1 => do
      let bs ← readBytes data pos 4
      let rest ← parseSubAuths data (pos + 4) n
      .ok (leVal bs :: rest)

/-- `LdapSid.parse` followed by `LdapSid.__str__`
(`'S-%d-%d-%s' % (revision, idauth, '-'.join(subs))`).  Returns the rendered
SID and the position after it. -/
def parseLdapSid (data : List Nat) (pos : Nat) : Except Unit (String × Nat) := do
  let hdr ← readBytes data pos 2
  let revision := hdr.head!
  let count := hdr.getLast!
  let authBytes ← readBytes data (pos + 2) 6
  let idauth := beVal authBytes
  let subs ← parseSubAuths data (pos + 8) count
  let rendered := "S-" ++ toString revision ++ "-" ++ toString idauth ++ "-" ++
    pyJoin "-" (subs.map toString)
  .ok (rendered, pos + 8 + 4 * count)

/-- A decoded ACE: header type/flags, access mask, and (for type 0x05) the
object-ACE flags with optional GUIDs.  `objectType`/`inheritedObjectType`
hold impacket's upper-case canonical GUID text. -/
structure AceData where
  aceType : Nat
  aceFlags : Nat
  mask : Nat
  objectFlags : Nat
  objectType : Option String
  inheritedObjectType : Option String
  sid : String
  deriving DecidableEq, Repr

/-- A decoded ACL: the ordered ACE list. -/
structure Acl where
  aces : List AceData
  deriving DecidableEq, Repr

/-- A decoded security descriptor.  A zero DACL offset leaves `dacl` as the
unparsed placeholder (`none`); `ownerSid` likewise. -/
structure SecurityDescriptor where
  control : Nat
  ownerSid : Option String
  dacl : Option Acl
  deriving DecidableEq, Repr

/-- Parse one ACE at `pos`; returns the ACE and the position of the next one
(`pos + AceSize`). -/
def parseAce (data : List Nat) (pos : Nat) : Except Unit (AceData × Nat) := do
  let hdr ← readBytes data pos 4
  let aceType := hdr.head!
  let aceFlags := hdr.get! 1
  let aceSize := leVal (hdr.drop 2)
  if aceType = 0x00 then do
    let maskBytes ← readBytes data (pos + 4) 4
    let (sid, _) ← parseLdapSid data (pos + 8)
    .ok (⟨aceType, aceFlags, leVal maskBytes, 0, none, none, sid⟩, pos + aceSize)
  else if aceType = 0x05 then do
    let maskBytes ← readBytes data (pos + 4) 4
    let flagBytes ← readBytes data (pos + 8) 4
    let objectFlags := leVal flagBytes
    let (objectType, pos') ←
      if objectFlags % 2 = 1 then do
        let g ← readBytes data (pos + 12) 16
        pure (some (guidBinToString g), pos + 28)
      else
        pure (none, pos + 12)
    let (inheritedObjectType, pos'') ←
      if objectFlags / 2 % 2 = 1 then do
        let g ← readBytes data pos' 16
        pure (some (guidBinToString g), pos' + 16)
      else
        pure (none, pos')
    let (sid, _) ← parseLdapSid data pos''
    .ok (⟨aceType, aceFlags, leVal maskBytes, objectFlags, objectType,
          inheritedObjectType, sid⟩, pos + aceSize)
  else
    .ok (⟨aceType, aceFlags, 0, 0, none, none, ""⟩, pos + aceSize)

/-- Parse `count` consecutive ACEs. -/
def parseAces (data : List Nat) (pos : Nat) : Nat → Except Unit (List AceData)
  | 0 => .ok []
  | n + 1 => do
      let (ace, pos') ← parseAce data pos
      let rest ← parseAces data pos' n
      .ok (ace :: rest)

/-- `ACL.parse`: 8-byte header (revision, sbz1, size, count, sbz2) then
`count` ACEs. -/
def parseAcl (data : List Nat) (pos : Nat) : Except Unit Acl := do
  let hdr ← readBytes data pos 8
  let count := leVal ((hdr.drop 4).take 2)
  let aces ← parseAces data (pos + 8) count
  .ok ⟨aces⟩

/-- `SecurityDescriptor.parse`: `<BBHIIII` header, then owner SID and DACL at
their offsets when non-zero. -/
def parseSecurityDescriptor (data : List Nat) : Except Unit SecurityDescriptor := do
  let hdr ← readBytes data 0 20
  let control := leVal ((hdr.drop 2).take 2)
  let offsetOwner := leVal ((hdr.drop 4).take 4)
  let offsetDacl := leVal ((hdr.drop 16).take 4)
  let ownerSid ←
    if offsetOwner = 0 then
      pure none
    else do
      let (sid, _) ← parseLdapSid data offsetOwner
      pure (some sid)
  let dacl ←
    if offsetDacl = 0 then
      pure none
    else do
      let acl ← parseAcl data offsetDacl
      pure (some acl)
  .ok ⟨control, ownerSid, dacl⟩

/-- `sd.has_control(sd.PD)` with `PD = 0x1000` (protected DACL). -/
def hasControl (sd : SecurityDescriptor) (flag : Nat) : Bool :=
  sd.control &&& flag = flag

/-- `str(sd.owner_sid)`: the rendered SID, or the string rendering of the
unparsed placeholder when the owner offset was zero (never in the ignore
set; its exact text plays no further role). -/
def ownerStr (sd : SecurityDescriptor) : String :=
  match sd.ownerSid with
  | some s => s
  | none => "None"

end Bofhound

namespace Bofhound

/-! ## Access masks, flags and well-known tables (external library models)

Constants from the BloodHound.py `ACCESS_MASK` / `ACE` /
`ACCESS_ALLOWED_OBJECT_ACE` classes and the two lookup tables the resolver
consults.  `EXTRIGHTS_GUID_MAPPING` values are binary GUIDs
(`string_to_bin(...)`); they are rendered here in the same upper-case
canonical text as `guidBinToString`, under which binary equality is string
equality.  `WELLKNOWN_SIDS` is `ADUtils.WELLKNOWN_SIDS` (sid ↦ (name, type));
the entries here are the standard table entries exercised by this
development — membership of any other SID never arises in a theorem. -/

def GENERIC_ALL : Nat := 0x10000000
def GENERIC_WRITE : Nat := 0x40000000
def WRITE_OWNER : Nat := 0x00080000
def WRITE_DACL : Nat := 0x00040000
def ADS_RIGHT_DS_CONTROL_ACCESS : Nat := 0x00000100
def ADS_RIGHT_DS_READ_PROP : Nat := 0x00000010
def ADS_RIGHT_DS_WRITE_PROP : Nat := 0x00000020
def ADS_RIGHT_DS_SELF : Nat := 0x00000008

/-- `ACE.INHERITED_ACE`. -/
def aceFlagInherited : Nat := 0x10
/-- `ACE.INHERIT_ONLY_ACE`. -/
def aceFlagInheritOnly : Nat := 0x08
/-- `ACCESS_ALLOWED_OBJECT_ACE.ACE_OBJECT_TYPE_PRESENT`. -/
def objFlagObjectTypePresent : Nat := 0x01
/-- `ACCESS_ALLOWED_OBJECT_ACE.ACE_INHERITED_OBJECT_TYPE_PRESENT`. -/
def objFlagInheritedTypePresent : Nat := 0x02

/-- `mask.has_priv(priv)`: `mask & priv == priv`. -/
def hasPriv (mask priv : Nat) : Bool :=
  mask &&& priv = priv

/-- `ace_object.has_flag(flag)` on the ACE header flags. -/
def hasAceFlag (ace : AceData) (flag : Nat) : Bool :=
  ace.aceFlags &&& flag = flag

/-- `ace_object.acedata.has_flag(flag)` on the object-ACE flags. -/
def hasObjFlag (ace : AceData) (flag : Nat) : Bool :=
  ace.objectFlags &&& flag = flag

/-- `acedata.get_object_type()` (guarded by the presence flag at every call
site). -/
def getObjectType (ace : AceData) : String :=
  ace.objectType.getD ""

/-- `acedata.get_inherited_object_type()` (likewise guarded). -/
def getInheritedObjectType (ace : AceData) : String :=
  ace.inheritedObjectType.getD ""

/-- `acedata.data.ObjectType == <binary guid>`: binary comparison of the
object-type field with a registered GUID (false when absent). -/
def matchesBinObjectType (ace : AceData) (guid : String) : Bool :=
  match ace.objectType with
  | some t => t = guid
  | none => false

/-- The ignore set `{"S-1-3-0", "S-1-5-18", "S-1-5-10"}`. -/
def ignoreSids : List String :=
  ["S-1-3-0", "S-1-5-18", "S-1-5-10"]

def extGetChanges : String := "1131F6AA-9C07-11D1-F79F-00C04FC2DCD2"
def extGetChangesAll : String := "1131F6AD-9C07-11D1-F79F-00C04FC2DCD2"
def extGetChangesInFilteredSet : String := "89E95B76-444D-4C62-991A-0FACBEDA640C"
def extWriteMember : String := "BF9679C0-0DE6-11D0-A285-00AA003049E2"
def extUserForceChangePassword : String := "00299570-246D-11D0-A768-00AA006E0529"
def extAllowedToAct : String := "3F78C3E5-F79A-46BD-A0B8-9D18116DDC79"
def extUserAccountRestrictionsSet : String := "4C164200-20C0-11D0-A768-00AA006E0529"
/-- Added to `EXTRIGHTS_GUID_MAPPING` at the top of acl_worker.py. -/
def extEnroll : String := "0E10C968-78FB-11D2-90D4-00C04F79DC55"

/-- `ADUtils.WELLKNOWN_SIDS`: sid ↦ (name, TYPE). -/
def wellknownSids : List (String × String × String) :=
  [("S-1-0", ("Null Authority", "USER")),
   ("S-1-0-0", ("Nobody", "USER")),
   ("S-1-1", ("World Authority", "USER")),
   ("S-1-1-0", ("Everyone", "GROUP")),
   ("S-1-2", ("Local Authority", "USER")),
   ("S-1-2-0", ("Local", "GROUP")),
   ("S-1-3", ("Creator Authority", "USER")),
   ("S-1-3-0", ("Creator Owner", "USER")),
   ("S-1-3-1", ("Creator Group", "USER")),
   ("S-1-5", ("NT Authority", "USER")),
   ("S-1-5-1", ("Dialup", "GROUP")),
   ("S-1-5-2", ("Network", "GROUP")),
   ("S-1-5-3", ("Batch", "GROUP")),
   ("S-1-5-4", ("Interactive", "GROUP")),
   ("S-1-5-6", ("Service", "GROUP")),
   ("S-1-5-7", ("Anonymous", "GROUP")),
   ("S-1-5-9", ("Enterprise Domain Controllers", "GROUP")),
   ("S-1-5-10", ("Principal Self", "USER")),
   ("S-1-5-11", ("Authenticated Users", "GROUP")),
   ("S-1-5-12", ("Restricted Code", "GROUP")),
   ("S-1-5-13", ("Terminal Server Users", "GROUP")),
   ("S-1-5-14", ("Remote Interactive Logon", "GROUP")),
   ("S-1-5-18", ("Local System", "USER")),
   ("S-1-5-19", ("NT Authority", "USER")),
   ("S-1-5-20", ("Network Service", "USER")),
   ("S-1-5-32-544", ("Administrators", "GROUP")),
   ("S-1-5-32-545", ("Users", "GROUP")),
   ("S-1-5-32-546", ("Guests", "GROUP")),
   ("S-1-5-32-547", ("Power Users", "GROUP")),
   ("S-1-5-32-548", ("Account Operators", "GROUP")),
   ("S-1-5-32-549", ("Server Operators", "GROUP")),
   ("S-1-5-32-550", ("Print Operators", "GROUP")),
   ("S-1-5-32-551", ("Backup Operators", "GROUP")),
   ("S-1-5-32-552", ("Replicators", "GROUP")),
   ("S-1-5-32-554", ("Pre-Windows 2000 Compatible Access", "GROUP")),
   ("S-1-5-32-555", ("Remote Desktop Users", "GROUP")),
   ("S-1-5-32-556", ("Network Configuration Operators", "GROUP"))]

/-- Python `str.title()` for the single-word type tags above. -/
def pyTitle (s : String) : String :=
  let rec go (prevAlpha : Bool) : List Char → List Char
    | [] => []
    | c :: cs =>
        if c.isAlpha then
          (if prevAlpha then c.toLower else c.toUpper) :: go true cs
        else
          c :: go false cs
  ⟨go false s.data⟩

/-- Python `str.endswith`. -/
def pyEndsWith (s suffix : String) : Bool :=
  suffix.data.isSuffixOf s.data

/-- BloodHound.py `ace_applies(ace_guid, object_class, objecttype_guid_map)`:
a direct `objecttype_guid_map[object_class]` index — `KeyError` (`.error ()`)
when the entry type is not a key, which the call sites in acl_worker.py wrap
in `try: ... except KeyError: pass`. -/
def aceApplies (aceGuid entryType : String) (guidMap : List (String × String)) :
    Except Unit Bool :=
  match dictGet guidMap entryType with
  | none => .error ()
  | some g => .ok (aceGuid = g)

/-- BloodHound.py `can_write_property(ace_object, binproperty)`. -/
def canWriteProperty (ace : AceData) (binProperty : String) : Bool :=
  if ¬ hasPriv ace.mask ADS_RIGHT_DS_WRITE_PROP then false
  else if ¬ hasObjFlag ace objFlagObjectTypePresent then true
  else matchesBinObjectType ace binProperty

/-- BloodHound.py `has_extended_right(ace_object, binrightguid)`. -/
def hasExtendedRight (ace : AceData) (binRightGuid : String) : Bool :=
  if ¬ hasPriv ace.mask ADS_RIGHT_DS_CONTROL_ACCESS then false
  else if ¬ hasObjFlag ace objFlagObjectTypePresent then true
  else matchesBinObjectType ace binRightGuid

end Bofhound

namespace Bofhound

/-! ## `parse_acl_standalone` (bofhound/ad/acl_worker.py) -/

/-- An emitted ACL relationship (`_build_relation`'s dict). -/
structure Relation where
  rightName : String
  principalSID : String
  isInherited : Bool
  principalType : String
  deriving DecidableEq, Repr

/-- The `entry_data` dict consumed by `parse_acl_standalone`
(`prepare_entry_for_worker`'s keys). -/
structure AclEntry where
  objectId : String
  entryType : String
  dn : String
  rawAces : String
  hasLaps : Bool
  deriving DecidableEq, Repr

/-- The worker context from `create_worker_context`. -/
structure AclWorkerContext where
  sidMap : List (String × String)
  domainMap : List (String × String)
  objectTypeGuidMap : List (String × String)
  deriving DecidableEq, Repr

/-- `_get_domain_component`: the `DC=` parts of the upper-cased DN. -/
def getDomainComponent (dn : String) : String :=
  pyJoin ","
    ((pySplitOn "," (pyStrUpper dn)).filter (fun p => pyStartsWith p "DC="))

/-- `_get_sid`: well-known SIDs are prefixed with the object's domain derived
from its DN (the looked-up `domain_sid` is computed but unused, as in the
source). -/
def getSid (sid dn : String) (domainMap : List (String × String)) : String :=
  if (dictGet wellknownSids sid).isSome then
    let dc := getDomainComponent dn
    let _domainSid := (dictGet domainMap dc).getD "S-????"
    pyReplace (pyReplace dc ",DC=" ".") "DC=" "" ++ "-" ++ sid
  else
    sid

/-- `_build_relation` (the `entry_type` parameter is unused in the source
body and omitted here). -/
def buildRelation (entryDn sid relation : String) (inherited : Bool)
    (sidMap domainMap : List (String × String)) : Relation :=
  let principalSid := getSid sid entryDn domainMap
  let principalType :=
    match dictGet sidMap sid with
    | some t => t
    | none =>
        match dictGet wellknownSids sid with
        | some nt => pyTitle nt.2
        | none => "Unknown"
  ⟨relation, principalSid, inherited, principalType⟩

/-- The `try: if <flag-present> and not ace_applies(...): continue
except KeyError: pass` idiom: skip only when the flag is present and
`ace_applies` returned `False` without raising. -/
def aceAppliesSkip (aceGuid entryType : String) (guidMap : List (String × String)) :
    Bool :=
  match aceApplies aceGuid entryType guidMap with
  | .ok b => !b
  | .error _ => false

/-- The per-ACE body of the `for ace_object in sd.dacl.aces:` loop of
`parse_acl_standalone`: the relations this ACE contributes, in emission
order.  `continue` statements become early returns of the contribution
accumulated so far; the `try: ... except KeyError: pass` around `ace_applies`
treats a `KeyError` (entry type absent from the GUID map) as "no skip". -/
def aceRelations (sidMap domainMap guidMap : List (String × String))
    (entryType entryDn : String) (hasLaps : Bool) (ace : AceData) : List Relation :=
  if ¬ (ace.aceType = 0x05 ∨ ace.aceType = 0x00) then []
  else
    let sid := ace.sid
    if ignoreSids.contains sid then []
    else
      let isInherited := hasAceFlag ace aceFlagInherited
      let rel := fun (r : String) =>
        buildRelation entryDn sid r isInherited sidMap domainMap
      let et := pyStrLower entryType
      if ace.aceType = 0x05 then
        if ¬ hasAceFlag ace aceFlagInherited ∧ hasAceFlag ace aceFlagInheritOnly then []
        else if hasAceFlag ace aceFlagInherited ∧
            hasObjFlag ace objFlagInheritedTypePresent ∧
            aceAppliesSkip (pyStrLower (getInheritedObjectType ace)) entryType guidMap then []
        else
          -- Generic access masks section; `.2 = true` means `continue`.
          let generic : List Relation × Bool :=
            if hasPriv ace.mask GENERIC_ALL || hasPriv ace.mask WRITE_DACL ||
               hasPriv ace.mask WRITE_OWNER || hasPriv ace.mask GENERIC_WRITE then
              if hasObjFlag ace objFlagObjectTypePresent ∧
                 aceAppliesSkip (pyStrLower (getObjectType ace)) entryType guidMap then
                ([], true)
              else if hasPriv ace.mask GENERIC_ALL then
                if et = "computer" ∧ hasObjFlag ace objFlagObjectTypePresent ∧
                   hasLaps ∧ (dictGet guidMap "ms-mcs-admpwd").isSome then
                  if pyStrLower (getObjectType ace) = (dictGet guidMap "ms-mcs-admpwd").getD "" then
                    ([rel "ReadLAPSPassword"], true)
                  else
                    ([], true)
                else
                  ([rel "GenericAll"], true)
              else
                let l1 := if hasPriv ace.mask GENERIC_WRITE then [rel "GenericWrite"] else []
                if hasPriv ace.mask GENERIC_WRITE ∧ ¬ (et = "domain" ∨ et = "computer") then
                  (l1, true)
                else
                  let l2 := l1 ++ (if hasPriv ace.mask WRITE_DACL then [rel "WriteDacl"] else [])
                  let l3 := l2 ++ (if hasPriv ace.mask WRITE_OWNER then [rel "WriteOwner"] else [])
                  (l3, false)
            else ([], false)
          if generic.2 then generic.1
          else
            -- Property-write privileges (`if ... DS_WRITE_PROP: ... elif ... DS_SELF: ...`).
            let writePropOrSelf :=
              if hasPriv ace.mask ADS_RIGHT_DS_WRITE_PROP then
                (if (et = "user" ∨ et = "group" ∨ et = "computer" ∨ et = "gpo") ∧
                    ¬ hasObjFlag ace objFlagObjectTypePresent then [rel "GenericWrite"] else [])
                ++ (if et = "group" ∧ canWriteProperty ace extWriteMember then
                      [rel "AddMember"] else [])
                ++ (if et = "computer" ∧ canWriteProperty ace extAllowedToAct then
                      [rel "AddAllowedToAct"] else [])
                ++ (if et = "computer" ∧ canWriteProperty ace extUserAccountRestrictionsSet ∧
                       ¬ pyEndsWith sid "-512" then [rel "WriteAccountRestrictions"] else [])
                ++ (if (et = "user" ∨ et = "computer") ∧
                       hasObjFlag ace objFlagObjectTypePresent ∧
                       (dictGet guidMap "ms-ds-key-credential-link").isSome ∧
                       pyStrLower (getObjectType ace)
                         = (dictGet guidMap "ms-ds-key-credential-link").getD "" then
                      [rel "AddKeyCredentialLink"] else [])
                ++ (if et = "user" ∧ hasObjFlag ace objFlagObjectTypePresent ∧
                       pyStrLower (getObjectType ace)
                         = "f3a64788-5306-11d1-a9c5-0000f80367c1" then
                      [rel "WriteSPN"] else [])
                ++ (if et = "pki template" ∧ hasObjFlag ace objFlagObjectTypePresent ∧
                       pyStrLower (getObjectType ace)
                         = "ea1dddc4-60ff-416e-8cc0-17cee534bce7" then
                      [rel "WritePKINameFlag"] else [])
                ++ (if et = "pki template" ∧ hasObjFlag ace objFlagObjectTypePresent ∧
                       pyStrLower (getObjectType ace)
                         = "d15ef7d8-f226-46db-ae79-b34e560bd12c" then
                      [rel "WritePKIEnrollmentFlag"] else [])
              else if hasPriv ace.mask ADS_RIGHT_DS_SELF then
                if et = "group" ∧ matchesBinObjectType ace extWriteMember then
                  [rel "AddSelf"]
                else []
              else []
            -- Property-read privileges (LAPS).
            let readProp :=
              if hasPriv ace.mask ADS_RIGHT_DS_READ_PROP then
                if et = "computer" ∧ hasObjFlag ace objFlagObjectTypePresent ∧
                   hasLaps ∧ (dictGet guidMap "ms-mcs-admpwd").isSome then
                  if pyStrLower (getObjectType ace) = (dictGet guidMap "ms-mcs-admpwd").getD "" then
                    [rel "ReadLAPSPassword"]
                  else []
                else []
              else []
            -- Extended rights.
            let control :=
              if hasPriv ace.mask ADS_RIGHT_DS_CONTROL_ACCESS then
                (if (et = "user" ∨ et = "domain") ∧
                    ¬ hasObjFlag ace objFlagObjectTypePresent then
                   [rel "AllExtendedRights"] else [])
                ++ (if et = "computer" ∧ ¬ hasObjFlag ace objFlagObjectTypePresent then
                      [rel "AllExtendedRights"] else [])
                ++ (if et = "domain" ∧ hasExtendedRight ace extGetChanges then
                      [rel "GetChanges"] else [])
                ++ (if et = "domain" ∧ hasExtendedRight ace extGetChangesAll then
                      [rel "GetChangesAll"] else [])
                ++ (if et = "domain" ∧ hasExtendedRight ace extGetChangesInFilteredSet then
                      [rel "GetChangesInFilteredSet"] else [])
                ++ (if et = "user" ∧ hasExtendedRight ace extUserForceChangePassword then
                      [rel "ForceChangePassword"] else [])
                ++ (if (et = "pki template" ∨ et = "enterpriseca") ∧
                       hasExtendedRight ace extEnroll then
                      [rel "Enroll"] else [])
              else []
            generic.1 ++ writePropOrSelf ++ readProp ++ control
      else
        -- ACCESS_ALLOWED_ACE (0x00)
        if ¬ hasAceFlag ace aceFlagInherited ∧ hasAceFlag ace aceFlagInheritOnly then []
        else if hasPriv ace.mask GENERIC_ALL then
          [rel "GenericAll"]
        else
          (if hasPriv ace.mask ADS_RIGHT_DS_WRITE_PROP ∧
              (et = "user" ∨ et = "group" ∨ et = "computer" ∨ et = "gpo") then
             [rel "GenericWrite"] else [])
          ++ (if hasPriv ace.mask WRITE_OWNER then [rel "WriteOwner"] else [])
          ++ (if (et = "user" ∨ et = "domain") ∧
                 hasPriv ace.mask ADS_RIGHT_DS_CONTROL_ACCESS then
                [rel "AllExtendedRights"] else [])
          ++ (if et = "computer" ∧ hasPriv ace.mask ADS_RIGHT_DS_CONTROL_ACCESS ∧
                 sid ≠ "S-1-5-32-544" ∧ ¬ pyEndsWith sid "-512" then
                [rel "AllExtendedRights"] else [])
          ++ (if hasPriv ace.mask WRITE_DACL then [rel "WriteDacl"] else [])

/-- `parse_acl_standalone`.  The `base64.b64decode` call sits in a bare
`try/except` (silent), but the `SecurityDescriptor(BytesIO(value))`
construction does not — a structure-parse failure propagates (`.error ()`),
as does the attribute access `sd.dacl.aces` on a descriptor without a
DACL. -/
def parseAclStandalone (entry : AclEntry) (context : AclWorkerContext) :
    Except Unit (String × List Relation × Bool) :=
  if entry.rawAces = "" then .ok (entry.objectId, [], false)
  else
    match b64decode entry.rawAces with
    | .error _ => .ok (entry.objectId, [], false)
    | .ok value =>
      if value.isEmpty then .ok (entry.objectId, [], false)
      else do
        let sd ← parseSecurityDescriptor value
        let isAclProtected := hasControl sd 0x1000
        let ownerSid := ownerStr sd
        let ownerRels :=
          if ignoreSids.contains ownerSid then []
          else [buildRelation entry.dn ownerSid "Owns" false
                  context.sidMap context.domainMap]
        let dacl ← match sd.dacl with
          | some a => Except.ok a
          | none => Except.error ()
        let relations := ownerRels ++
          dacl.aces.flatMap
            (aceRelations context.sidMap context.domainMap context.objectTypeGuidMap
              entry.entryType entry.dn entry.hasLaps)
        .ok (entry.objectId, relations, isAclProtected)

end Bofhound

namespace Bofhound

/-! ## `parse_acl_for_object` / `process_acls_parallel`
(bofhound/ad/acl_processor.py) -/

/-- `ACLProcessorContext`. -/
structure AclProcessorContext where
  sidMap : List (String × String)
  domainMap : List (String × String)
  guidMap : List (String × String)
  deriving DecidableEq, Repr

/-- The `obj_data` tuple `(object_id, entry_type, raw_aces, dn, properties)`. -/
structure ObjData where
  objectId : String
  entryType : String
  rawAces : String
  dn : String
  properties : List (String × String)
  deriving DecidableEq, Repr

/-- Principal-type resolution of `parse_acl_for_object`:
`context.sid_map.get(sid, "Unknown")`, overridden by the well-known table. -/
def processorPrincipalType (sidMap : List (String × String)) (sid : String) : String :=
  let fromMap := (dictGet sidMap sid).getD "Unknown"
  match dictGet wellknownSids sid with
  | some nt => pyTitle nt.2
  | none => fromMap

/-- `parse_acl_for_object`: both the base64 decode and the
`SecurityDescriptor` construction are wrapped in `try/except` (logged at
warning level) and degrade to `(object_id, [], False, 0)`.  The per-ACE loop
applies only the GenericAll / WriteDacl / WriteOwner mask checks, with no ACE
type or inherit-only filtering, and `num_relations` counts every append. -/
def parseAclForObject (objData : ObjData) (context : AclProcessorContext) :
    Except Unit (String × (List Relation × Bool × Nat)) :=
  if objData.rawAces = "" then .ok (objData.objectId, [], false, 0)
  else
    match b64decode objData.rawAces with
    | .error _ => .ok (objData.objectId, [], false, 0)
    | .ok value =>
      if value.isEmpty then .ok (objData.objectId, [], false, 0)
      else
        match parseSecurityDescriptor value with
        | .error _ => .ok (objData.objectId, [], false, 0)
        | .ok sd =>
          let isAclProtected := hasControl sd 0x1000
          let osid := ownerStr sd
          let ownerAces :=
            if ignoreSids.contains osid then []
            else [Relation.mk "Owner" osid false
                    (processorPrincipalType context.sidMap osid)]
          match sd.dacl with
          | none => .ok (objData.objectId, ownerAces, isAclProtected, ownerAces.length)
          | some dacl =>
            let aceRels := dacl.aces.flatMap (fun ace =>
              if ignoreSids.contains ace.sid then []
              else
                let principalType := processorPrincipalType context.sidMap ace.sid
                let inherited := hasAceFlag ace aceFlagInherited
                (if hasPriv ace.mask GENERIC_ALL then
                   [Relation.mk "GenericAll" ace.sid inherited principalType] else [])
                ++ (if hasPriv ace.mask WRITE_DACL then
                      [Relation.mk "WriteDacl" ace.sid inherited principalType] else [])
                ++ (if hasPriv ace.mask WRITE_OWNER then
                      [Relation.mk "WriteOwner" ace.sid inherited principalType] else []))
            let aces := ownerAces ++ aceRels
            .ok (objData.objectId, aces, isAclProtected, aces.length)

/-- The `obj_data_list` preparation in `process_acls_parallel`
(`hasattr(obj, 'RawAces') and obj.RawAces`). -/
def prepareObjData (objects : List BHObject) : List ObjData :=
  objects.filterMap (fun obj =>
    if obj.rawAces ≠ "" then
      some ⟨obj.objectIdentifier, obj.entryType, obj.rawAces,
            (dictGet obj.properties "distinguishedname").getD "", obj.properties⟩
    else none)

/-- Context preparation in `process_acls_parallel`
(`sid_map={sid: obj._entry_type for sid, obj in sid_map.items()}`). -/
def buildProcessorContext (sidMap : List (String × BHObject))
    (domainMap guidMap : List (String × String)) : AclProcessorContext :=
  ⟨sidMap.map (fun p => (p.1, p.2.entryType)), domainMap, guidMap⟩

/-- The sequential branch of `process_acls_parallel`: process each prepared
tuple in order, collecting `results[obj_id] = (aces, is_protected, num_rels)`
(an exception inside `parse_acl_for_object` would propagate). -/
def processAclsSequential (objDataList : List ObjData) (context : AclProcessorContext) :
    Except Unit (List (String × (List Relation × Bool × Nat))) :=
  objDataList.foldlM
    (fun results objData => do
      let r ← parseAclForObject objData context
      pure (dictSet results r.1 r.2))
    []

/-- Sequence a fallible map over a work list, collecting results in input
order (the semantics of `pool.map`: results come back in submission order,
and a raised exception in any worker re-raises in the parent). -/
def exceptMapM {α β : Type} (f : α → Except Unit β) : List α → Except Unit (List β)
  | [] => .ok []
  | x :: xs => do
      let y ← f x
      let ys ← exceptMapM f xs
      .ok (y :: ys)

/-- Partition a work list into consecutive chunks (how a process pool shards
`pool.map`; `cuts` gives the sizes of the leading chunks, the final chunk
takes the rest).  Joining the chunks always restores the work list. -/
def chunkBy : List Nat → List ObjData → List (List ObjData)
  | [], xs => [xs]
  | n :: ns, xs => xs.take n :: chunkBy ns (xs.drop n)

/-- `process_acls_parallel`.  Work below 100 items or with one worker runs the
sequential branch; otherwise the pool maps `parse_acl_for_object` over the
chunks — each worker gets the same read-only context — and the results are
collected back in input order (`pool.map` preserves order), then folded into
the results dict exactly as the sequential branch does. -/
def processAclsParallel (objects : List BHObject) (sidMap : List (String × BHObject))
    (domainMap guidMap : List (String × String)) (numWorkers : Nat)
    (cuts : List Nat) :
    Except Unit (List (String × (List Relation × Bool × Nat))) :=
  let context := buildProcessorContext sidMap domainMap guidMap
  let objDataList := prepareObjData objects
  if objDataList.isEmpty then .ok []
  else if objDataList.length < 100 ∨ numWorkers = 1 then
    processAclsSequential objDataList context
  else do
    let parallelResults ← (chunkBy cuts objDataList).foldlM
      (fun acc chunk => do
        let ys ← exceptMapM (fun objData => parseAclForObject objData context) chunk
        pure (acc ++ ys))
      []
    pure (parallelResults.foldl (fun results r => dictSet results r.1 r.2) [])

end Bofhound


namespace Bofhound

/-! ## Theorems

### BoundaryDetector lemmas -/

theorem BoundaryDetector.processLine_pattern (d : BoundaryDetector) (line : List Char) :
    ((d.processLine line).2).boundaryPattern = d.boundaryPattern := by
  unfold processLine
  split
  · rfl
  · dsimp only
    split
    · split <;> rfl
    · rfl

theorem BoundaryDetector.processLine_acc_le (d : BoundaryDetector) (line : List Char)
    (h : d.accumulatedChars ≤ d.boundaryPattern.length) :
    ((d.processLine line).2).accumulatedChars ≤ d.boundaryPattern.length := by
  unfold processLine
  split
  · exact h
  · dsimp only
    split
    · next hpre =>
      have hp : line <+: d.boundaryPattern.drop d.accumulatedChars :=
        List.isPrefixOf_iff_prefix.mp hpre
      have hlen : line.length ≤ d.boundaryPattern.length - d.accumulatedChars := by
        have h2 := hp.length_le
        simpa [List.length_drop] using h2
      split
      · exact Nat.zero_le _
      · dsimp only
        omega
    · exact h

theorem BoundaryDetector.run_pattern (lines : List (List Char)) :
    ∀ d : BoundaryDetector, (d.run lines).boundaryPattern = d.boundaryPattern := by
  induction lines with
  | nil => intro d; rfl
  | cons line rest ih =>
      intro d
      have h1 : d.run (line :: rest) = ((d.processLine line).2).run rest := rfl
      rw [h1, ih, d.processLine_pattern line]

theorem BoundaryDetector.run_acc_le (lines : List (List Char)) :
    ∀ d : BoundaryDetector, d.accumulatedChars ≤ d.boundaryPattern.length →
      (d.run lines).accumulatedChars ≤ d.boundaryPattern.length := by
  induction lines with
  | nil => intro d h; exact h
  | cons line rest ih =>
      intro d h
      have h1 : d.run (line :: rest) = ((d.processLine line).2).run rest := rfl
      rw [h1]
      have h2 := ih ((d.processLine line).2)
        (by rw [d.processLine_pattern line]; exact d.processLine_acc_le line h)
      rw [d.processLine_pattern line] at h2
      exact h2

theorem BoundaryDetector.processLine_notBoundary (d : BoundaryDetector) (line : List Char)
    (h : (d.processLine line).1 = .notBoundary) :
    (d.processLine line).2 = d := by
  unfold processLine at h ⊢
  split at h
  · simp_all
  · dsimp only at h ⊢
    split at h
    · split at h <;> simp_all
    · simp_all

theorem BoundaryDetector.processLine_complete (d : BoundaryDetector) (c : List Char)
    (hc : c ≠ []) (hpre : c.isPrefixOf (d.boundaryPattern.drop d.accumulatedChars) = true)
    (hdone : d.accumulatedChars + c.length = d.boundaryPattern.length) :
    d.processLine c = (BoundaryResult.completeBoundary, { d with accumulatedChars := 0 }) := by
  unfold processLine
  simp [hc, hpre, hdone]

theorem BoundaryDetector.processLine_partial (d : BoundaryDetector) (c : List Char)
    (hc : c ≠ []) (hpre : c.isPrefixOf (d.boundaryPattern.drop d.accumulatedChars) = true)
    (hnotdone : d.accumulatedChars + c.length ≠ d.boundaryPattern.length) :
    d.processLine c =
      (BoundaryResult.partialBoundary,
        { d with accumulatedChars := d.accumulatedChars + c.length }) := by
  unfold processLine
  simp [hc, hpre, hnotdone]

theorem BoundaryDetector.runResults_chunks (cs : List (List Char)) :
    ∀ d : BoundaryDetector, cs ≠ [] → (∀ c ∈ cs, c ≠ []) →
      d.boundaryPattern.drop d.accumulatedChars = cs.flatten →
      d.runResults cs =
        List.replicate (cs.length - 1) BoundaryResult.partialBoundary
          ++ [BoundaryResult.completeBoundary] := by
  induction cs with
  | nil => intro d h; exact absurd rfl h
  | cons c cs ih =>
      intro d _ hne hdrop
      have hc : c ≠ [] := hne c (by simp)
      have hlen : (d.boundaryPattern.drop d.accumulatedChars).length
          = d.boundaryPattern.length - d.accumulatedChars := List.length_drop ..
      have hflat : d.boundaryPattern.drop d.accumulatedChars = c ++ cs.flatten := by
        simpa using hdrop
      have hpre : c.isPrefixOf (d.boundaryPattern.drop d.accumulatedChars) = true := by
        rw [hflat]
        exact List.isPrefixOf_iff_prefix.mpr (List.prefix_append c cs.flatten)
      have hsum : c.length + cs.flatten.length
          = d.boundaryPattern.length - d.accumulatedChars := by
        rw [← List.length_append, ← hflat]
        exact hlen
      have hcpos : 0 < c.length := List.length_pos.mpr hc
      cases cs with
      | nil =>
          have hdone : d.accumulatedChars + c.length = d.boundaryPattern.length := by
            simp only [List.flatten_nil, List.length_nil] at hsum
            omega
          unfold BoundaryDetector.runResults
          rw [d.processLine_complete c hc hpre hdone]
          rfl
      | cons c' cs' =>
          have hflatne : (c' :: cs').flatten ≠ [] := by
            have hc' : c' ≠ [] := hne c' (by simp)
            simp only [List.flatten_cons]
            intro hcontra
            exact hc' (List.append_eq_nil.mp hcontra).1
          have hfpos : 0 < (c' :: cs').flatten.length := List.length_pos.mpr hflatne
          have hnotdone : d.accumulatedChars + c.length ≠ d.boundaryPattern.length := by
            omega
          have hdrop' :
              (d.boundaryPattern.drop (d.accumulatedChars + c.length))
                = (c' :: cs').flatten := by
            have h1 : d.boundaryPattern.drop (d.accumulatedChars + c.length)
                = (d.boundaryPattern.drop d.accumulatedChars).drop c.length := by
              rw [List.drop_drop]
            rw [h1, hflat]
            exact List.drop_left c (c' :: cs').flatten
          have ihres := ih { d with accumulatedChars := d.accumulatedChars + c.length }
            (by simp) (fun x hx => hne x (by simp [hx])) hdrop'
          unfold BoundaryDetector.runResults
          rw [d.processLine_partial c hc hpre hnotdone]
          dsimp only
          rw [ihres]
          rw [show (c :: c' :: cs').length - 1 = ((c' :: cs').length - 1) + 1 by simp]
          simp [List.replicate_succ]

/-! ### C6 — BoundaryDetector invariant and mismatch behaviour -/

/-- C6 (counterexample): the claim "whenever a line fails to match the
remaining unmatched suffix of the token (the call returns NotBoundary), the
accumulated match count is reset to zero" is false on the code: with the
20-dash boundary token, after a 10-dash partial match, the non-matching line
`"x"` returns `NotBoundary` while the accumulated count stays 10, not 0. -/
theorem C6_counterexample :
    (((BoundaryDetector.init (List.replicate 20 '-')).processLine
        (List.replicate 10 '-')).2.processLine ['x']).1
        = BoundaryResult.notBoundary
    ∧ (((BoundaryDetector.init (List.replicate 20 '-')).processLine
        (List.replicate 10 '-')).2.processLine ['x']).2.accumulatedChars = 10 := by
  decide

/-- C6 (amended): at every point in any sequence of `process_line` calls on a
detector built from a token of length N, the accumulated-match length never
exceeds N; and whenever a call returns `NotBoundary` the detector state is
left entirely unchanged — the accumulated count is retained, not reset — while
the line is handled as ordinary content by the parser on top (appended to the
current record when inside an object and neither an end-of-output nor a
skippable line). -/
theorem C6_amended :
    (∀ (pattern : List Char) (lines : List (List Char)),
      ((BoundaryDetector.init pattern).run lines).accumulatedChars ≤ pattern.length)
    ∧ (∀ (d : BoundaryDetector) (line : List Char),
        (d.processLine line).1 = BoundaryResult.notBoundary →
          (d.processLine line).2 = d)
    ∧ (∀ (p : LdapRecordParser) (lineRaw : List Char),
        (p.boundaryDetector.processLine (pyStrip lineRaw)).1 = BoundaryResult.notBoundary →
        p.isEndOfToolOutput (pyStrip lineRaw) = false →
        p.shouldSkipLine (pyStrip lineRaw) = false →
        p.parsingState = ParsingState.inLdapObject →
        p.processLine lineRaw =
          .ok { p with currentRecordLines := p.currentRecordLines ++ [pyStrip lineRaw] }) := by
  refine ⟨?_, BoundaryDetector.processLine_notBoundary, ?_⟩
  · intro pattern lines
    exact BoundaryDetector.run_acc_le lines (BoundaryDetector.init pattern) (Nat.zero_le _)
  · intro p lineRaw hnb hend hskip hstate
    obtain ⟨crl, lr, ps, bd, sp, ep⟩ := p
    dsimp only at hnb hstate ⊢
    subst hstate
    have hd := BoundaryDetector.processLine_notBoundary _ _ hnb
    unfold LdapRecordParser.processLine
    dsimp only
    rw [show (bd.processLine (pyStrip lineRaw))
        = (BoundaryResult.notBoundary, bd) from Prod.ext hnb hd]
    simp [hend, hskip, LdapRecordParser.handleContentLine]

/-- C6 (witness): the amended statement instantiated — a run over a 10-dash
partial, a mismatch and a further line keeps the count within 20; a detector
at count 10 is unchanged by a mismatching line; a content line while inside
an object is appended to the current record. -/
theorem C6_amended_witness :
    ((BoundaryDetector.init (List.replicate 20 '-')).run
        [List.replicate 10 '-', ['x'], List.replicate 10 '-']).accumulatedChars ≤ 20
    ∧ ((BoundaryDetector.mk (List.replicate 20 '-') 10).processLine ['x']).2
        = BoundaryDetector.mk (List.replicate 20 '-') 10
    ∧ (LdapRecordParser.mk [] [] .inLdapObject
          (BoundaryDetector.init (List.replicate 20 '-')) [] none).processLine
            "hello".toList
        = .ok (LdapRecordParser.mk [pyStrip "hello".toList] [] .inLdapObject
            (BoundaryDetector.init (List.replicate 20 '-')) [] none) := by
  refine ⟨?_, C6_amended.2.1 _ _ (by decide), ?_⟩
  · have h := C6_amended.1 (List.replicate 20 '-')
      [List.replicate 10 '-', ['x'], List.replicate 10 '-']
    simpa using h
  · exact C6_amended.2.2 _ _ (by decide) rfl rfl rfl

/-! ### C7 — BoundaryDetector split detection -/

/-- C7: on a fresh detector with boundary literal P, (a) feeding P as one
line yields `CompleteBoundary`; (b) feeding nonempty chunks whose
concatenation is exactly P yields `PartialBoundary` on every proper-prefix
call and `CompleteBoundary` exactly on the completing call; (c) a line that
extends past the remaining literal yields `NotBoundary` — overshoot never
completes. -/
theorem C7_boundary_split_detection :
    (∀ P : List Char, P ≠ [] →
      ((BoundaryDetector.init P).processLine P).1 = BoundaryResult.completeBoundary)
    ∧ (∀ (P : List Char) (cs : List (List Char)), cs ≠ [] → (∀ c ∈ cs, c ≠ []) →
        cs.flatten = P →
        (BoundaryDetector.init P).runResults cs
          = List.replicate (cs.length - 1) BoundaryResult.partialBoundary
              ++ [BoundaryResult.completeBoundary])
    ∧ (∀ (d : BoundaryDetector) (extra : List Char), extra ≠ [] →
        (d.processLine (d.boundaryPattern.drop d.accumulatedChars ++ extra)).1
          = BoundaryResult.notBoundary) := by
  refine ⟨?_, ?_, ?_⟩
  · intro P hP
    have h := (BoundaryDetector.init P).processLine_complete P hP
      (by simp [BoundaryDetector.init, List.isPrefixOf_iff_prefix])
      (by simp [BoundaryDetector.init])
    rw [h]
  · intro P cs hcs hne hflat
    exact BoundaryDetector.runResults_chunks cs (BoundaryDetector.init P) hcs hne
      (by simpa [BoundaryDetector.init] using hflat.symm)
  · intro d extra hex
    unfold BoundaryDetector.processLine
    have hline : d.boundaryPattern.drop d.accumulatedChars ++ extra ≠ [] := by
      intro h
      exact hex (List.append_eq_nil.mp h).2
    rw [if_neg hline]
    dsimp only
    have hnp : ¬ ((d.boundaryPattern.drop d.accumulatedChars ++ extra).isPrefixOf
        (d.boundaryPattern.drop d.accumulatedChars) = true) := by
      intro h
      have hp := List.isPrefixOf_iff_prefix.mp h
      have hle := hp.length_le
      simp only [List.length_append] at hle
      have : extra.length = 0 := by omega
      exact hex (List.length_eq_zero.mp this)
    rw [if_neg hnp]

/-- C7 (witness): the 20-dash literal as one line completes; as two 10-dash
chunks it yields Partial then Complete; a 21-dash line yields NotBoundary. -/
theorem C7_witness :
    ((BoundaryDetector.init (List.replicate 20 '-')).processLine
        (List.replicate 20 '-')).1 = BoundaryResult.completeBoundary
    ∧ (BoundaryDetector.init (List.replicate 20 '-')).runResults
        [List.replicate 10 '-', List.replicate 10 '-']
      = [BoundaryResult.partialBoundary, BoundaryResult.completeBoundary]
    ∧ ((BoundaryDetector.init (List.replicate 20 '-')).processLine
        (List.replicate 21 '-')).1 = BoundaryResult.notBoundary := by
  refine ⟨C7_boundary_split_detection.1 _ (by decide), ?_, ?_⟩
  · have h := C7_boundary_split_detection.2.1 (List.replicate 20 '-')
      [List.replicate 10 '-', List.replicate 10 '-'] (by decide) (by decide) (by decide)
    simpa using h
  · have h := C7_boundary_split_detection.2.2
      (BoundaryDetector.init (List.replicate 20 '-')) (List.replicate 1 '-') (by decide)
    have e : (BoundaryDetector.init (List.replicate 20 '-')).boundaryPattern.drop
        (BoundaryDetector.init (List.replicate 20 '-')).accumulatedChars
          ++ List.replicate 1 '-' = List.replicate 21 '-' := by decide
    rw [e] at h
    exact h

/-! ### Dictionary and Python-string lemmas -/

theorem dictGet_dictSet_self {α β : Type} [DecidableEq α] (d : List (α × β)) (k : α) (v : β) :
    dictGet (dictSet d k v) k = some v := by
  induction d with
  | nil => simp [dictGet, dictSet, List.find?]
  | cons kv rest ih =>
      obtain ⟨k', v'⟩ := kv
      by_cases h : k' = k
      · subst h
        simp [dictGet, dictSet, List.find?]
      · simp only [dictSet, if_neg h]
        simp only [dictGet, List.find?] at ih ⊢
        simp [h, ih]

theorem dictSet_dictSet {α β : Type} [DecidableEq α] (d : List (α × β)) (k : α) (v w : β) :
    dictSet (dictSet d k v) k w = dictSet d k w := by
  induction d with
  | nil => simp [dictSet]
  | cons kv rest ih =>
      obtain ⟨k', v'⟩ := kv
      by_cases h : k' = k
      · subst h
        simp [dictSet]
      · simp [dictSet, h, ih]

theorem pySplitOnce_not_mem (sep : Char) (l : List Char) (h : sep ∉ l) :
    pySplitOnce sep l = (l, none) := by
  induction l with
  | nil => rfl
  | cons c cs ih =>
      have hc : ¬ c = sep := fun he => h (he ▸ List.mem_cons_self c cs)
      have hcs : sep ∉ cs := fun hm => h (List.mem_cons_of_mem c hm)
      simp [pySplitOnce, hc, ih hcs]

theorem pySplitOnce_append (sep : Char) (k rest : List Char) (h : sep ∉ k) :
    pySplitOnce sep (k ++ sep :: rest) = (k, some rest) := by
  induction k with
  | nil => simp [pySplitOnce]
  | cons c cs ih =>
      have hc : ¬ c = sep := fun he => h (he ▸ List.mem_cons_self c cs)
      have hcs : sep ∉ cs := fun hm => h (List.mem_cons_of_mem c hm)
      simp [pySplitOnce, hc, ih hcs]

theorem getKeyValue_split (k v : List Char) (hk : ':' ∉ k) :
    getKeyValue (k ++ ':' :: v) = (pyLower (pyStrip k), some (pyStrip v)) := by
  simp [getKeyValue, pySplitOnce_append ':' k v hk]

theorem getKeyValue_no_colon (l : List Char) (h : ':' ∉ l) :
    getKeyValue l = (pyLower (pyStrip l), none) := by
  simp [getKeyValue, pySplitOnce_not_mem ':' l h]

theorem mem_pyLStrip (c : Char) (l : List Char) (hc : pyIsSpace c = false) (h : c ∈ l) :
    c ∈ pyLStrip l := by
  induction l with
  | nil => cases h
  | cons a as ih =>
      by_cases ha : pyIsSpace a
      · have hca : c ≠ a := fun he => by rw [he] at hc; rw [hc] at ha; cases ha
        rcases List.mem_cons.mp h with h1 | h2
        · exact absurd h1 hca
        · simpa [pyLStrip, ha] using ih h2
      · simpa [pyLStrip, ha] using h

theorem mem_pyStrip (c : Char) (l : List Char) (hc : pyIsSpace c = false) (h : c ∈ l) :
    c ∈ pyStrip l := by
  unfold pyStrip pyRStrip
  apply mem_pyLStrip c _ hc
  rw [List.mem_reverse]
  apply mem_pyLStrip c _ hc
  rw [List.mem_reverse]
  exact h

theorem pyStrip_ne_nil_of_colon (l : List Char) (h : ':' ∈ l) : pyStrip l ≠ [] :=
  List.ne_nil_of_mem (mem_pyStrip ':' l (by decide) h)

/-! ### Record-accumulator invariant: `_parse_lines_to_attributes` never
raises (`attributes[current_attribute] += line` is only reached with the key
present). -/

theorem attrStep_ok (st : AttrParseState) (line : List Char)
    (hinv : st.inAttributeKey = false → (dictGet st.attributes st.currentAttribute).isSome) :
    ∃ st', attrStep st line = .ok st'
      ∧ (st'.inAttributeKey = false →
          (dictGet st'.attributes st'.currentAttribute).isSome) := by
  unfold attrStep
  by_cases hblank : pyStrip line = []
  · exact ⟨{ st with breakInPreviousMessage := true }, by rw [if_pos hblank], hinv⟩
  · rw [if_neg hblank]
    rcases hkv : getKeyValue line with ⟨key, value⟩
    dsimp only
    by_cases hb : st.breakInPreviousMessage
    · by_cases hk : st.inAttributeKey
      · by_cases hv : optTruthy value
        · refine ⟨{ breakInPreviousMessage := false
                    inAttributeKey := false
                    currentAttribute := st.currentAttribute ++ key
                    attributes := dictSet st.attributes (st.currentAttribute ++ key)
                      (value.getD []) }, ?_, ?_⟩
          · simp [hb, hk, hv]
          · intro _
            simp [dictGet_dictSet_self]
        · refine ⟨{ st with
                    breakInPreviousMessage := false
                    currentAttribute := st.currentAttribute ++ key }, ?_, ?_⟩
          · simp [hb, hk, hv]
          · intro hcontra
            simp only at hcontra
            rw [hcontra] at hk
            cases hk
      · have hsome := hinv (by simpa using hk)
        rcases hget : dictGet st.attributes st.currentAttribute with _ | v
        · rw [hget] at hsome
          cases hsome
        · refine ⟨{ st with
                    breakInPreviousMessage := false
                    attributes := dictSet st.attributes st.currentAttribute (v ++ line) },
                  ?_, ?_⟩
          · simp [hb, hk, hget]
          · intro _
            simp [dictGet_dictSet_self]
    · by_cases hv : optTruthy value
      · refine ⟨{ breakInPreviousMessage := false
                  inAttributeKey := false
                  currentAttribute := key
                  attributes := dictSet st.attributes key (value.getD []) }, ?_, ?_⟩
        · simp [hb, hv]
        · intro _
          simp [dictGet_dictSet_self]
      · refine ⟨{ breakInPreviousMessage := false
                  inAttributeKey := true
                  currentAttribute := key
                  attributes := st.attributes }, ?_, ?_⟩
        · simp [hb, hv]
        · intro hcontra
          cases hcontra

theorem foldlM_attrStep_ok (lines : List (List Char)) :
    ∀ st : AttrParseState,
      (st.inAttributeKey = false → (dictGet st.attributes st.currentAttribute).isSome) →
      ∃ st', lines.foldlM attrStep st = .ok st'
        ∧ (st'.inAttributeKey = false →
            (dictGet st'.attributes st'.currentAttribute).isSome) := by
  induction lines with
  | nil => intro st h; exact ⟨st, rfl, h⟩
  | cons line rest ih =>
      intro st h
      obtain ⟨st1, hstep, hinv1⟩ := attrStep_ok st line h
      obtain ⟨st', hrest, hinv'⟩ := ih st1 hinv1
      refine ⟨st', ?_, hinv'⟩
      rw [List.foldlM_cons, hstep]
      simpa using hrest

/-- `_parse_lines_to_attributes` never raises, whatever the accumulated
lines. -/
theorem parseLinesToAttributes_ok (lines : List (List Char)) :
    ∃ attrs, parseLinesToAttributes lines = .ok attrs := by
  obtain ⟨st', h, _⟩ := foldlM_attrStep_ok lines AttrParseState.init (by intro h; cases h)
  refine ⟨st'.attributes, ?_⟩
  unfold parseLinesToAttributes
  rw [h]
  rfl

theorem saveCurrentRecord_ok (p : LdapRecordParser) :
    ∃ q, p.saveCurrentRecord = .ok q := by
  obtain ⟨attrs, h⟩ := parseLinesToAttributes_ok p.currentRecordLines
  refine ⟨{ p with
            ldapRecords :=
              if attrs.isEmpty then p.ldapRecords else p.ldapRecords ++ [attrs]
            currentRecordLines := [] }, ?_⟩
  unfold LdapRecordParser.saveCurrentRecord
  rw [h]
  rfl

theorem handleBoundaryLine_ok (p : LdapRecordParser) :
    ∃ q, p.handleBoundaryLine = .ok q := by
  unfold LdapRecordParser.handleBoundaryLine
  split
  · exact ⟨_, rfl⟩
  · exact saveCurrentRecord_ok p

theorem handleEndOfToolOutput_ok (p : LdapRecordParser) :
    ∃ q, p.handleEndOfToolOutput = .ok q := by
  unfold LdapRecordParser.handleEndOfToolOutput
  by_cases h : p.parsingState = ParsingState.inLdapObject
  · obtain ⟨q, hq⟩ := saveCurrentRecord_ok p
    refine ⟨{ q with parsingState := ParsingState.waitingForLdapObject }, ?_⟩
    rw [if_pos h]
    rw [show (do
        let p' ← p.saveCurrentRecord
        Except.ok { p' with parsingState := ParsingState.waitingForLdapObject } :
          Except Unit LdapRecordParser)
      = p.saveCurrentRecord >>= fun p' =>
          Except.ok { p' with parsingState := ParsingState.waitingForLdapObject } from rfl]
    rw [hq]
    rfl
  · exact ⟨_, by rw [if_neg h]; rfl⟩

theorem ldapRecordParser_processLine_total (p : LdapRecordParser) (line : List Char) :
    ∃ q, p.processLine line = .ok q := by
  unfold LdapRecordParser.processLine
  dsimp only
  rcases hb : p.boundaryDetector.processLine (pyStrip line) with ⟨boundary, det⟩
  cases boundary <;> dsimp only
  · by_cases hend : LdapRecordParser.isEndOfToolOutput
        { p with boundaryDetector := det } (pyStrip line)
    · rw [if_pos hend]
      exact handleEndOfToolOutput_ok _
    · rw [if_neg hend]
      split
      · exact ⟨_, rfl⟩
      · exact ⟨_, rfl⟩
  · exact ⟨_, rfl⟩
  · exact handleBoundaryLine_ok _
  · by_cases hend : LdapRecordParser.isEndOfToolOutput
        { p with boundaryDetector := det } (pyStrip line)
    · rw [if_pos hend]
      exact handleEndOfToolOutput_ok _
    · rw [if_neg hend]
      split
      · exact ⟨_, rfl⟩
      · exact ⟨_, rfl⟩

/-! ### C9 — best-effort line handling -/

/-- C9 (counterexample): the Outflank-variant `process_line` does not return
normally on every line: on the line `"hello"` — not a well-formed JSON task
envelope (no `'UTC '` marker) — the `line.split('UTC ', 1)[1]` index raises
(`IndexError`), uncaught. -/
theorem C9_counterexample :
    OutflankC2JsonParser.processLine ⟨StreamingLdapParser.init⟩ "hello".toList
      = .error () := by
  rfl

/-- C9 (amended): the base LDAP record parser's `process_line` returns
normally on every line and every parser state — a line matching no
skip-pattern, boundary or content rule is treated as ordinary best-effort
content — but the Outflank-variant `process_line` is not total: any line in
which `'UTC '` does not occur (hence not a well-formed JSON task envelope)
raises an uncaught `IndexError` from `line.split('UTC ', 1)[1]`. -/
theorem C9_amended :
    (∀ (p : LdapRecordParser) (line : List Char), ∃ q, p.processLine line = Except.ok q)
    ∧ (∀ (p : OutflankC2JsonParser) (line : List Char),
        (pySplitOnceSub "UTC ".toList line).2 = none →
        p.processLine line = .error ()) := by
  refine ⟨ldapRecordParser_processLine_total, ?_⟩
  intro p line h
  unfold OutflankC2JsonParser.processLine
  rcases hsp : pySplitOnceSub "UTC ".toList line with ⟨before, after⟩
  rw [hsp] at h
  simp only at h
  subst h
  rfl

/-- C9 (witness): the amended statement at concrete inputs — a plain content
line is accepted by a fresh 20-dash-boundary record parser, and an Outflank
parser errors on a line without the `'UTC '` marker. -/
theorem C9_amended_witness :
    (∃ q, (LdapRecordParser.init (List.replicate 20 '-')).processLine
        "some random tool output".toList = Except.ok q)
    ∧ OutflankC2JsonParser.processLine ⟨StreamingLdapParser.init⟩
        "not a json envelope".toList = .error () := by
  refine ⟨C9_amended.1 _ _, C9_amended.2 _ _ ?_⟩
  rfl


/-! ### C8 — accumulator step lemmas and split-line reconstruction -/

theorem exceptOk_bind {α β : Type} (a : α) (f : α → Except Unit β) :
    (Except.ok a : Except Unit α) >>= f = f a := rfl

theorem optTruthy_some_of_ne (v : List Char) (h : v ≠ []) : optTruthy (some v) = true := by
  cases v with
  | nil => exact absurd rfl h
  | cons a as => rfl

theorem attrStep_blank (s : AttrParseState) :
    attrStep s [] = .ok { s with breakInPreviousMessage := true } := rfl

theorem attrStep_keyvalue_nobreak (s : AttrParseState) (line k v : List Char)
    (hb : s.breakInPreviousMessage = false)
    (hblank : pyStrip line ≠ []) (hgkv : getKeyValue line = (k, some v)) (htru : v ≠ []) :
    attrStep s line
      = .ok { breakInPreviousMessage := false
              inAttributeKey := false
              currentAttribute := k
              attributes := dictSet s.attributes k v } := by
  unfold attrStep
  rw [if_neg hblank, hgkv]
  simp [hb, optTruthy_some_of_ne v htru]

theorem attrStep_keyvalue_break_inkey (s : AttrParseState) (line k v : List Char)
    (hb : s.breakInPreviousMessage = true) (hk : s.inAttributeKey = true)
    (hblank : pyStrip line ≠ []) (hgkv : getKeyValue line = (k, some v)) (htru : v ≠ []) :
    attrStep s line
      = .ok { breakInPreviousMessage := false
              inAttributeKey := false
              currentAttribute := s.currentAttribute ++ k
              attributes := dictSet s.attributes (s.currentAttribute ++ k) v } := by
  unfold attrStep
  rw [if_neg hblank, hgkv]
  simp [hb, hk, optTruthy_some_of_ne v htru]

theorem attrStep_key_nobreak (s : AttrParseState) (line k : List Char)
    (hb : s.breakInPreviousMessage = false)
    (hblank : pyStrip line ≠ []) (hgkv : getKeyValue line = (k, none)) :
    attrStep s line
      = .ok { breakInPreviousMessage := false
              inAttributeKey := true
              currentAttribute := k
              attributes := s.attributes } := by
  unfold attrStep
  rw [if_neg hblank, hgkv]
  simp [hb, optTruthy]

theorem attrStep_key_break_inkey (s : AttrParseState) (line k : List Char)
    (hb : s.breakInPreviousMessage = true) (hk : s.inAttributeKey = true)
    (hblank : pyStrip line ≠ []) (hgkv : getKeyValue line = (k, none)) :
    attrStep s line
      = .ok { s with breakInPreviousMessage := false
                     currentAttribute := s.currentAttribute ++ k } := by
  unfold attrStep
  rw [if_neg hblank, hgkv]
  simp [hb, hk, optTruthy]

theorem attrStep_value_continuation (s : AttrParseState) (line w : List Char)
    (hb : s.breakInPreviousMessage = true) (hk : s.inAttributeKey = false)
    (hblank : pyStrip line ≠ [])
    (hget : dictGet s.attributes s.currentAttribute = some w) :
    attrStep s line
      = .ok { s with
              breakInPreviousMessage := false
              attributes := dictSet s.attributes s.currentAttribute (w ++ line) } := by
  unfold attrStep
  rw [if_neg hblank]
  rcases hkv : getKeyValue line with ⟨key, value⟩
  simp [hb, hk, hget]

/-- Mid-value split: from any accumulator state satisfying the reachability
invariant, the lines `key:value₁`, blank, `value₂` drive the accumulator to
exactly the state produced by the unsplit line `key:value₁value₂`. -/
theorem attr_mid_value_split (st : AttrParseState) (k v1 v2 : List Char)
    (hinv : st.inAttributeKey = false → (dictGet st.attributes st.currentAttribute).isSome)
    (hk : ':' ∉ k) (hks : pyStrip k = k) (hkl : pyLower k = k)
    (hv1s : pyStrip v1 = v1) (hv1n : v1 ≠ [])
    (hv2s : pyStrip v2 = v2) (hv2n : v2 ≠ [])
    (hv12s : pyStrip (v1 ++ v2) = v1 ++ v2) :
    [k ++ ':' :: v1, [], v2].foldlM attrStep st
      = [k ++ ':' :: (v1 ++ v2)].foldlM attrStep st := by
  have hblank1 : pyStrip (k ++ ':' :: v1) ≠ [] :=
    pyStrip_ne_nil_of_colon _ (by simp)
  have hblank12 : pyStrip (k ++ ':' :: (v1 ++ v2)) ≠ [] :=
    pyStrip_ne_nil_of_colon _ (by simp)
  have hblank2 : pyStrip v2 ≠ [] := by rw [hv2s]; exact hv2n
  have hgkv1 : getKeyValue (k ++ ':' :: v1) = (k, some v1) := by
    rw [getKeyValue_split k v1 hk, hks, hkl, hv1s]
  have hgkv12 : getKeyValue (k ++ ':' :: (v1 ++ v2)) = (k, some (v1 ++ v2)) := by
    rw [getKeyValue_split k (v1 ++ v2) hk, hks, hkl, hv12s]
  have hv12n : v1 ++ v2 ≠ [] := by simp [hv1n]
  simp only [List.foldlM_cons, List.foldlM_nil]
  cases hb : st.breakInPreviousMessage with
  | false =>
      rw [attrStep_keyvalue_nobreak st _ k v1 hb hblank1 hgkv1 hv1n, exceptOk_bind,
        attrStep_blank, exceptOk_bind,
        attrStep_value_continuation _ v2 v1 rfl rfl hblank2 (dictGet_dictSet_self ..),
        exceptOk_bind,
        attrStep_keyvalue_nobreak st _ k (v1 ++ v2) hb hblank12 hgkv12 hv12n, exceptOk_bind]
      simp [dictSet_dictSet]
  | true =>
      cases hk2 : st.inAttributeKey with
      | true =>
          rw [attrStep_keyvalue_break_inkey st _ k v1 hb hk2 hblank1 hgkv1 hv1n,
            exceptOk_bind, attrStep_blank, exceptOk_bind,
            attrStep_value_continuation _ v2 v1 rfl rfl hblank2 (dictGet_dictSet_self ..),
            exceptOk_bind,
            attrStep_keyvalue_break_inkey st _ k (v1 ++ v2) hb hk2 hblank12 hgkv12 hv12n,
            exceptOk_bind]
          simp [dictSet_dictSet]
      | false =>
          have hsome := hinv hk2
          rcases hget : dictGet st.attributes st.currentAttribute with _ | v0
          · rw [hget] at hsome; cases hsome
          · rw [attrStep_value_continuation st _ v0 hb hk2 hblank1 hget, exceptOk_bind,
              attrStep_blank, exceptOk_bind]
            dsimp only
            rw [attrStep_value_continuation
                { st with
                  breakInPreviousMessage := true
                  attributes := dictSet st.attributes st.currentAttribute
                    (v0 ++ (k ++ ':' :: v1)) }
                v2 (v0 ++ (k ++ ':' :: v1)) rfl hk2 hblank2
                (dictGet_dictSet_self st.attributes st.currentAttribute
                  (v0 ++ (k ++ ':' :: v1))),
              exceptOk_bind,
              attrStep_value_continuation st _ v0 hb hk2 hblank12 hget, exceptOk_bind]
            simp [dictSet_dictSet]

/-- Mid-key split: the lines `frag₁`, blank, `frag₂:value` drive the
accumulator to exactly the state produced by the unsplit line
`frag₁frag₂:value`. -/
theorem attr_mid_key_split (st : AttrParseState) (f1 f2 v : List Char)
    (hinv : st.inAttributeKey = false → (dictGet st.attributes st.currentAttribute).isSome)
    (hf1 : ':' ∉ f1) (hf1s : pyStrip f1 = f1) (hf1l : pyLower f1 = f1) (hf1n : f1 ≠ [])
    (hf2 : ':' ∉ f2) (hf2s : pyStrip f2 = f2) (hf2l : pyLower f2 = f2)
    (h12s : pyStrip (f1 ++ f2) = f1 ++ f2)
    (hvs : pyStrip v = v) (hvn : v ≠ []) :
    [f1, [], f2 ++ ':' :: v].foldlM attrStep st
      = [(f1 ++ f2) ++ ':' :: v].foldlM attrStep st := by
  have hblank1 : pyStrip f1 ≠ [] := by rw [hf1s]; exact hf1n
  have hblank3 : pyStrip (f2 ++ ':' :: v) ≠ [] :=
    pyStrip_ne_nil_of_colon _ (by simp)
  have hblank13 : pyStrip ((f1 ++ f2) ++ ':' :: v) ≠ [] :=
    pyStrip_ne_nil_of_colon _ (by simp)
  have h12 : ':' ∉ f1 ++ f2 := by
    intro h
    rcases List.mem_append.mp h with h | h
    · exact hf1 h
    · exact hf2 h
  have h12l : pyLower (f1 ++ f2) = f1 ++ f2 := by
    unfold pyLower at hf1l hf2l ⊢
    rw [List.map_append, hf1l, hf2l]
  have hgkv1 : getKeyValue f1 = (f1, none) := by
    rw [getKeyValue_no_colon f1 hf1, hf1s, hf1l]
  have hgkv3 : getKeyValue (f2 ++ ':' :: v) = (f2, some v) := by
    rw [getKeyValue_split f2 v hf2, hf2s, hf2l, hvs]
  have hgkv13 : getKeyValue ((f1 ++ f2) ++ ':' :: v) = (f1 ++ f2, some v) := by
    rw [getKeyValue_split (f1 ++ f2) v h12, h12s, h12l, hvs]
  simp only [List.foldlM_cons, List.foldlM_nil]
  cases hb : st.breakInPreviousMessage with
  | false =>
      rw [attrStep_key_nobreak st f1 f1 hb hblank1 hgkv1, exceptOk_bind,
        attrStep_blank, exceptOk_bind,
        attrStep_keyvalue_break_inkey _ _ f2 v rfl rfl hblank3 hgkv3 hvn, exceptOk_bind,
        attrStep_keyvalue_nobreak st _ (f1 ++ f2) v hb hblank13 hgkv13 hvn, exceptOk_bind]
  | true =>
      cases hk2 : st.inAttributeKey with
      | true =>
          rw [attrStep_key_break_inkey st f1 f1 hb hk2 hblank1 hgkv1, exceptOk_bind,
            attrStep_blank, exceptOk_bind]
          dsimp only
          rw [attrStep_keyvalue_break_inkey
              { st with
                breakInPreviousMessage := true
                currentAttribute := st.currentAttribute ++ f1 }
              (f2 ++ ':' :: v) f2 v rfl hk2 hblank3 hgkv3 hvn,
            exceptOk_bind,
            attrStep_keyvalue_break_inkey st _ (f1 ++ f2) v hb hk2 hblank13 hgkv13 hvn,
            exceptOk_bind]
          simp [List.append_assoc]
      | false =>
          have hsome := hinv hk2
          rcases hget : dictGet st.attributes st.currentAttribute with _ | v0
          · rw [hget] at hsome; cases hsome
          · rw [attrStep_value_continuation st f1 v0 hb hk2 hblank1 hget, exceptOk_bind,
              attrStep_blank, exceptOk_bind]
            dsimp only
            rw [attrStep_value_continuation
                { st with
                  breakInPreviousMessage := true
                  attributes := dictSet st.attributes st.currentAttribute (v0 ++ f1) }
                (f2 ++ ':' :: v) (v0 ++ f1) rfl hk2 hblank3
                (dictGet_dictSet_self st.attributes st.currentAttribute (v0 ++ f1)),
              exceptOk_bind,
              attrStep_value_continuation st _ v0 hb hk2 hblank13 hget, exceptOk_bind]
            simp [dictSet_dictSet, List.append_assoc]

/-- C8: a key-and-value line split mid-token by a blank-line break
reconstructs to the same attribute mapping as the unsplit block — the spec's
`userAccountControl: 660` + blank + `48` example yields
`useraccountcontrol = 66048`, and in general (for whitespace-stable,
lower-case-stable, colon-free fragments) a mid-value or mid-key split inside
any block parses identically to the unsplit block. -/
theorem C8_broken_line_reconstruction :
    (parseLinesToAttributes ["userAccountControl: 660".toList, [], "48".toList]
        = .ok [("useraccountcontrol".toList, "66048".toList)])
    ∧ (∀ (pre suf : List (List Char)) (k v1 v2 : List Char),
        ':' ∉ k → pyStrip k = k → pyLower k = k →
        pyStrip v1 = v1 → v1 ≠ [] → pyStrip v2 = v2 → v2 ≠ [] →
        pyStrip (v1 ++ v2) = v1 ++ v2 →
        parseLinesToAttributes (pre ++ [k ++ ':' :: v1, [], v2] ++ suf)
          = parseLinesToAttributes (pre ++ [k ++ ':' :: (v1 ++ v2)] ++ suf))
    ∧ (∀ (pre suf : List (List Char)) (f1 f2 v : List Char),
        ':' ∉ f1 → pyStrip f1 = f1 → pyLower f1 = f1 → f1 ≠ [] →
        ':' ∉ f2 → pyStrip f2 = f2 → pyLower f2 = f2 →
        pyStrip (f1 ++ f2) = f1 ++ f2 → pyStrip v = v → v ≠ [] →
        parseLinesToAttributes (pre ++ [f1, [], f2 ++ ':' :: v] ++ suf)
          = parseLinesToAttributes (pre ++ [(f1 ++ f2) ++ ':' :: v] ++ suf)) := by
  refine ⟨rfl, ?_, ?_⟩
  · intro pre suf k v1 v2 hk hks hkl hv1s hv1n hv2s hv2n hv12s
    obtain ⟨st0, hpre, hinv0⟩ :=
      foldlM_attrStep_ok pre AttrParseState.init (by intro h; cases h)
    have key := attr_mid_value_split st0 k v1 v2 hinv0 hk hks hkl hv1s hv1n hv2s hv2n hv12s
    unfold parseLinesToAttributes
    simp only [List.foldlM_append, hpre, exceptOk_bind, key]
  · intro pre suf f1 f2 v hf1 hf1s hf1l hf1n hf2 hf2s hf2l h12s hvs hvn
    obtain ⟨st0, hpre, hinv0⟩ :=
      foldlM_attrStep_ok pre AttrParseState.init (by intro h; cases h)
    have key := attr_mid_key_split st0 f1 f2 v hinv0 hf1 hf1s hf1l hf1n hf2 hf2s hf2l
      h12s hvs hvn
    unfold parseLinesToAttributes
    simp only [List.foldlM_append, hpre, exceptOk_bind, key]

/-- C8 (witness): the general split equivalences instantiated at the spec's
example fragments. -/
theorem C8_witness :
    parseLinesToAttributes ["useraccountcontrol:660".toList, [], "48".toList]
      = parseLinesToAttributes ["useraccountcontrol:66048".toList]
    ∧ parseLinesToAttributes ["useraccount".toList, [], "control:66048".toList]
      = parseLinesToAttributes ["useraccountcontrol:66048".toList] := by
  constructor
  · have h := C8_broken_line_reconstruction.2.1 [] [] "useraccountcontrol".toList
      "660".toList "48".toList (by decide) (by decide) (by decide) (by decide)
      (by decide) (by decide) (by decide) (by decide)
    simpa using h
  · have h := C8_broken_line_reconstruction.2.2 [] [] "useraccount".toList
      "control".toList "66048".toList (by decide) (by decide) (by decide) (by decide)
      (by decide) (by decide) (by decide) (by decide) (by decide) (by decide)
    simpa using h

/-! ### C10 — boundary-pair counting vs. emission filtering -/

/-- C10 (counterexample): in the `types.py` `LdapRecordParser` — one of the
parsers the claim covers via `_save_current_record` / `get_results` — a pair
of adjacent complete boundary markers appends no record at all: the empty
record is dropped at save time (`if attributes:`), not at emission, so the
internal record list stays at length 0 instead of the claimed 1. -/
theorem C10_counterexample :
    (do
      let p1 ← (LdapRecordParser.init (List.replicate 20 '-')).processLine
        (List.replicate 20 '-')
      let p2 ← p1.processLine (List.replicate 20 '-')
      pure p2.ldapRecords.length : Except Unit Nat) = .ok 0 := by
  rfl

/-- C10 (amended): in `StreamingLdapParser` each pair of adjacent complete
boundary markers appends exactly one record to the internal list even when no
content lines occurred (the empty record is counted internally), the first
boundary merely opens the object, and `get_records` excludes empty records at
emission (appending an empty record never changes the emitted list); in the
`types.py` `LdapRecordParser`, by contrast, the non-empty filter sits in
`_save_current_record`, so an empty record between boundaries is never
appended internally. -/
theorem C10_amended :
    (∀ (p : StreamingLdapParser) (line : List Char),
        isTimestampLine (pyStrip line) = false →
        isReceivedOutputLine (pyStrip line) = false →
        isBoundaryLine (pyStrip line) = true →
        p.state = ParsingState.inLdapObject →
        p.currentRecord = [] →
        p.processLine line
          = .ok { p with ldapRecords := p.ldapRecords ++ [LdapRecord.init]
                         currentRecord := [] })
    ∧ (∀ (p : StreamingLdapParser) (line : List Char),
        p.state ≠ ParsingState.inLdapObject →
        isTimestampLine (pyStrip line) = false →
        isReceivedOutputLine (pyStrip line) = false →
        isBoundaryLine (pyStrip line) = true →
        p.processLine line = .ok { p with state := ParsingState.inLdapObject })
    ∧ (∀ p : StreamingLdapParser,
        p.getRecords
          = (p.ldapRecords.filter (fun r => !r.isEmptyRecord)).map LdapRecord.toDict)
    ∧ (∀ (rs : List LdapRecord),
        StreamingLdapParser.getRecords
            ⟨ParsingState.inLdapObject, [], rs ++ [LdapRecord.init]⟩
          = StreamingLdapParser.getRecords ⟨ParsingState.inLdapObject, [], rs⟩) := by
  refine ⟨?_, ?_, fun _ => rfl, ?_⟩
  · intro p line ht hr hbnd hstate hcur
    unfold StreamingLdapParser.processLine
    dsimp only
    rw [ht, hr]
    simp only [Bool.or_self, Bool.false_eq_true, if_false]
    rw [hbnd]
    simp only [if_true]
    unfold StreamingLdapParser.handleBoundaryLine
    rw [hcur, hstate]
    simp [LdapRecord.fromLines]
  · intro p line hstate ht hr hbnd
    unfold StreamingLdapParser.processLine
    dsimp only
    rw [ht, hr]
    simp only [Bool.or_self, Bool.false_eq_true, if_false]
    rw [hbnd]
    simp only [if_true]
    unfold StreamingLdapParser.handleBoundaryLine
    rw [if_pos hstate]
  · intro rs
    unfold StreamingLdapParser.getRecords
    simp [List.filter_append, LdapRecord.isEmptyRecord, LdapRecord.init]

/-- C10 (witness): the amended statement at a concrete 20-dash boundary pair:
the second boundary appends one empty record internally, the first only opens
the object, and the emitted record list stays empty. -/
theorem C10_witness :
    (StreamingLdapParser.mk ParsingState.inLdapObject [] []).processLine
        (List.replicate 20 '-')
      = .ok (StreamingLdapParser.mk ParsingState.inLdapObject [] [LdapRecord.init])
    ∧ StreamingLdapParser.init.processLine (List.replicate 20 '-')
      = .ok (StreamingLdapParser.mk ParsingState.inLdapObject [] [])
    ∧ StreamingLdapParser.getRecords
        ⟨ParsingState.inLdapObject, [], [LdapRecord.init]⟩ = [] := by
  refine ⟨?_, ?_, ?_⟩
  · exact C10_amended.1 ⟨ParsingState.inLdapObject, [], []⟩ (List.replicate 20 '-')
      (by decide) (by decide) (by decide) rfl rfl
  · exact C10_amended.2.1 StreamingLdapParser.init (List.replicate 20 '-')
      (by decide) (by decide) (by decide) (by decide)
  · exact (C10_amended.2.2.2 []).trans rfl

/-! ### C1 — cache change detection ignores the fingerprint -/

/-- C1: `get_changed_objects` computes the submitted object's fingerprint but
never compares it with the stored one.  Concretely: after storing a Computer
object, re-submitting it with a mutated non-volatile attribute
(`samaccountname`) — whose fingerprint demonstrably differs from the stored
fingerprint — yields an empty changed set instead of the claimed reappearance;
in general an object is in the changed set iff it is in the input and no
cache row exists for its `(objectsid, upper(distinguishedname))` key,
independently of every fingerprint. -/
theorem C1_cache_ignores_fingerprint :
    (hashObject
        [("distinguishedname", "CN=WIN10,OU=WORKSTATIONS,DC=WINDOMAIN,DC=LOCAL"),
         ("samaccountname", "RENAMED$"),
         ("objectsid", "S-1-5-21-3674311734-1768984491-1162443153-1104")]
      ≠ hashObject
        [("distinguishedname", "CN=WIN10,OU=WORKSTATIONS,DC=WINDOMAIN,DC=LOCAL"),
         ("samaccountname", "WIN10$"),
         ("objectsid", "S-1-5-21-3674311734-1768984491-1162443153-1104")])
    ∧ ObjectCache.getChangedObjects
        (ObjectCache.storeObject ⟨[]⟩
          ⟨"S-1-5-21-3674311734-1768984491-1162443153-1104",
           [("distinguishedname", "CN=WIN10,OU=WORKSTATIONS,DC=WINDOMAIN,DC=LOCAL"),
            ("samaccountname", "WIN10$"),
            ("objectsid", "S-1-5-21-3674311734-1768984491-1162443153-1104")],
           "Computer", ""⟩)
        [[("distinguishedname", "CN=WIN10,OU=WORKSTATIONS,DC=WINDOMAIN,DC=LOCAL"),
          ("samaccountname", "RENAMED$"),
          ("objectsid", "S-1-5-21-3674311734-1768984491-1162443153-1104")]]
        = []
    ∧ (∀ (c : ObjectCache) (objs : List (List (String × String)))
          (o : List (String × String)),
        o ∈ ObjectCache.getChangedObjects c objs ↔
          o ∈ objs ∧
            (ObjectCache.getCachedObject c ((dictGet o "objectsid").getD "")
              (pyStrUpper ((dictGet o "distinguishedname").getD ""))).isNone) := by
  refine ⟨by decide, by decide, ?_⟩
  intro c objs o
  unfold ObjectCache.getChangedObjects
  rw [List.mem_filter]

/-! ### C2 — malformed-blob handling at the per-object boundary -/

theorem exceptError_bind {α β : Type} (f : α → Except Unit β) :
    (Except.error () : Except Unit α) >>= f = .error () := rfl

theorem isEmpty_false_of_ne {α : Type} (l : List α) (h : l ≠ []) : l.isEmpty = false := by
  cases l with
  | nil => exact absurd rfl h
  | cons a as => rfl

/-- C2 (counterexample): `parse_acl_standalone` does not catch a binary
SecurityDescriptor structure-parse failure: on the blob `"AA=="` — valid
base64 decoding to the single byte `0x00`, too short for the 20-byte
descriptor header — the per-object call raises instead of returning
normally. -/
theorem C2_counterexample :
    parseAclStandalone ⟨"obj-1", "Computer", "DC=X", "AA==", false⟩ ⟨[], [], []⟩
      = .error () := by
  rfl

/-- C2 (amended): `parse_acl_for_object` returns normally on every input —
in particular both a base64 decode failure and a SecurityDescriptor
structure-parse failure degrade to `(object_id, [], False, 0)`, logged at
warning level; `parse_acl_standalone`, however, catches only the base64
decode failure (silently, returning `(object_id, [], False)`) — a
SecurityDescriptor structure-parse failure propagates out of the per-object
call. -/
theorem C2_amended :
    (∀ (objData : ObjData) (context : AclProcessorContext),
      ∃ r, parseAclForObject objData context = .ok r)
    ∧ (∀ (objData : ObjData) (context : AclProcessorContext),
        (b64decode objData.rawAces = .error () ∨
          ∃ v, b64decode objData.rawAces = .ok v ∧ v ≠ [] ∧
            parseSecurityDescriptor v = .error ()) →
        parseAclForObject objData context = .ok (objData.objectId, [], false, 0))
    ∧ (∀ (entry : AclEntry) (context : AclWorkerContext),
        b64decode entry.rawAces = .error () →
        parseAclStandalone entry context = .ok (entry.objectId, [], false))
    ∧ (∀ (entry : AclEntry) (context : AclWorkerContext) (v : List Nat),
        entry.rawAces ≠ "" →
        b64decode entry.rawAces = .ok v → v ≠ [] →
        parseSecurityDescriptor v = .error () →
        parseAclStandalone entry context = .error ()) := by
  refine ⟨?_, ?_, ?_, ?_⟩
  · intro objData context
    unfold parseAclForObject
    split
    · exact ⟨_, rfl⟩
    · split
      · exact ⟨_, rfl⟩
      · split
        · exact ⟨_, rfl⟩
        · split
          · exact ⟨_, rfl⟩
          · dsimp only
            split
            · exact ⟨_, rfl⟩
            · exact ⟨_, rfl⟩
  · intro objData context h
    unfold parseAclForObject
    by_cases hraw : objData.rawAces = ""
    · rw [if_pos hraw]
    · rw [if_neg hraw]
      rcases h with herr | ⟨v, hok, hne, hsd⟩
      · rw [herr]
      · rw [hok]
        dsimp only
        rw [isEmpty_false_of_ne v hne]
        simp only [Bool.false_eq_true, if_false]
        rw [hsd]
  · intro entry context herr
    unfold parseAclStandalone
    by_cases hraw : entry.rawAces = ""
    · rw [if_pos hraw]
    · rw [if_neg hraw, herr]
  · intro entry context v hraw hok hne hsd
    unfold parseAclStandalone
    rw [if_neg hraw, hok]
    dsimp only
    rw [isEmpty_false_of_ne v hne]
    simp only [Bool.false_eq_true, if_false]
    rw [hsd, exceptError_bind]

/-- C2 (witness): the amended statement at concrete inputs — a malformed
base64 blob (`"A"`) degrades to `([], False)` in both functions, the
too-short decoded blob (`"AA=="`) degrades only in `parse_acl_for_object`,
and `parse_acl_standalone` errors on it. -/
theorem C2_witness :
    (∃ r, parseAclForObject ⟨"o1", "User", "A", "DC=X", []⟩ ⟨[], [], []⟩ = .ok r)
    ∧ parseAclForObject ⟨"o2", "User", "AA==", "DC=X", []⟩ ⟨[], [], []⟩
        = .ok ("o2", [], false, 0)
    ∧ parseAclStandalone ⟨"o3", "User", "DC=X", "A", false⟩ ⟨[], [], []⟩
        = .ok ("o3", [], false)
    ∧ parseAclStandalone ⟨"o4", "User", "DC=X", "AA==", false⟩ ⟨[], [], []⟩
        = .error () := by
  refine ⟨C2_amended.1 _ _, ?_, ?_, ?_⟩
  · exact C2_amended.2.1 ⟨"o2", "User", "AA==", "DC=X", []⟩ ⟨[], [], []⟩
      (Or.inr ⟨[0], by rfl, by decide, by rfl⟩)
  · exact C2_amended.2.2.1 ⟨"o3", "User", "DC=X", "A", false⟩ ⟨[], [], []⟩ (by rfl)
  · exact C2_amended.2.2.2 ⟨"o4", "User", "DC=X", "AA==", false⟩ ⟨[], [], []⟩ [0]
      (by decide) (by rfl) (by decide) (by rfl)

/-! ### C3 — parallel/sequential equivalence of the ACL dispatcher -/

theorem exceptMapM_append {α β : Type} (f : α → Except Unit β) (l1 l2 : List α) :
    exceptMapM f (l1 ++ l2)
      = exceptMapM f l1 >>= fun a => exceptMapM f l2 >>= fun b => .ok (a ++ b) := by
  induction l1 with
  | nil =>
      simp only [List.nil_append, exceptMapM]
      rw [exceptOk_bind]
      rcases h : exceptMapM f l2 with e | b <;> rfl
  | cons x xs ih =>
      simp only [List.cons_append, exceptMapM]
      rcases hx : f x with e | y
      · rfl
      · simp only [List.append_eq]
        rw [exceptOk_bind, exceptOk_bind, ih]
        rcases h1 : exceptMapM f xs with e | a
        · rfl
        · rw [exceptOk_bind, exceptOk_bind]
          rcases h2 : exceptMapM f l2 with e | b
          · rfl
          · rfl

theorem chunkBy_foldlM (f : ObjData → Except Unit (String × (List Relation × Bool × Nat)))
    (cuts : List Nat) :
    ∀ (xs : List ObjData) (acc : List (String × (List Relation × Bool × Nat))),
      (chunkBy cuts xs).foldlM
          (fun acc chunk => do
            let ys ← exceptMapM f chunk
            pure (acc ++ ys))
          acc
        = exceptMapM f xs >>= fun ys => pure (acc ++ ys) := by
  induction cuts with
  | nil =>
      intro xs acc
      simp only [chunkBy, List.foldlM_cons, List.foldlM_nil]
      rcases h : exceptMapM f xs with e | ys
      · rfl
      · rfl
  | cons n ns ih =>
      intro xs acc
      simp only [chunkBy, List.foldlM_cons]
      have hsplit : exceptMapM f xs
          = exceptMapM f (xs.take n) >>= fun a =>
              exceptMapM f (xs.drop n) >>= fun b => .ok (a ++ b) := by
        rw [← exceptMapM_append f (xs.take n) (xs.drop n), List.take_append_drop]
      rw [hsplit]
      rcases h1 : exceptMapM f (xs.take n) with e | a
      · rfl
      · rw [exceptOk_bind, exceptOk_bind]
        simp only [pure_bind]
        rw [ih (xs.drop n) (acc ++ a)]
        rcases h2 : exceptMapM f (xs.drop n) with e | b
        · rfl
        · rw [exceptOk_bind, exceptOk_bind]
          simp only [List.append_assoc]
          rfl

theorem foldlM_dictSet_exceptMapM (f : ObjData → Except Unit (String × (List Relation × Bool × Nat)))
    : ∀ (xs : List ObjData) (acc : List (String × (List Relation × Bool × Nat))),
      xs.foldlM
          (fun results objData => do
            let r ← f objData
            pure (dictSet results r.1 r.2))
          acc
        = exceptMapM f xs >>= fun rs =>
            pure (rs.foldl (fun results r => dictSet results r.1 r.2) acc) := by
  intro xs
  induction xs with
  | nil =>
      intro acc
      simp only [List.foldlM_nil, exceptMapM]
      rfl
  | cons x xs ih =>
      intro acc
      simp only [List.foldlM_cons, exceptMapM]
      rcases hx : f x with e | r
      · rfl
      · rw [exceptOk_bind, exceptOk_bind]
        simp only [pure_bind]
        rw [ih (dictSet acc r.1 r.2)]
        rcases h1 : exceptMapM f xs with e | rs
        · rfl
        · rw [exceptOk_bind, exceptOk_bind]
          rfl

/-- C3: for every object list, every fixed immutable lookup context
(sid map, domain map, guid map), every worker count and every chunking the
pool may choose, `process_acls_parallel` returns exactly the per-object
results dict that sequential resolution of the same prepared objects under
the same context produces — per object identifier, the same relationship
list and the same `isAclProtected` flag; the sub-threshold and
single-worker branches execute the sequential code path itself. -/
theorem C3_parallel_sequential_equivalence (objects : List BHObject)
    (sidMap : List (String × BHObject)) (domainMap guidMap : List (String × String))
    (numWorkers : Nat) (cuts : List Nat) :
    processAclsParallel objects sidMap domainMap guidMap numWorkers cuts
      = processAclsSequential (prepareObjData objects)
          (buildProcessorContext sidMap domainMap guidMap) := by
  unfold processAclsParallel
  dsimp only
  by_cases hemp : (prepareObjData objects).isEmpty
  · rw [if_pos hemp]
    rcases hxs : prepareObjData objects with _ | ⟨x, xs⟩
    · rfl
    · rw [hxs] at hemp
      simp [List.isEmpty] at hemp
  · rw [if_neg hemp]
    by_cases hseq : (prepareObjData objects).length < 100 ∨ numWorkers = 1
    · rw [if_pos hseq]
    · rw [if_neg hseq]
      rw [chunkBy_foldlM (fun objData =>
            parseAclForObject objData (buildProcessorContext sidMap domainMap guidMap))
          cuts (prepareObjData objects) []]
      rw [processAclsSequential,
          foldlM_dictSet_exceptMapM (fun objData =>
            parseAclForObject objData (buildProcessorContext sidMap domainMap guidMap))
          (prepareObjData objects) []]
      rcases h1 : exceptMapM (fun objData =>
          parseAclForObject objData (buildProcessorContext sidMap domainMap guidMap))
          (prepareObjData objects) with e | rs
      · rfl
      · rw [exceptOk_bind, exceptOk_bind]
        simp only [pure_bind, List.nil_append]

/-- C4: for a Computer-type entry (entry type string `"Computer"`, which is
never itself a key of the schema GUID map), a GENERIC_ALL
ACCESS_ALLOWED_OBJECT ACE whose object-type GUID is present and (lowercased)
equals the registered `ms-mcs-admpwd` GUID emits, for any non-ignored
principal SID: with `hasLaps = true` exactly one ReadLAPSPassword
relationship and no GenericAll; with `hasLaps = false` exactly one GenericAll
relationship. -/
theorem C4_laps_overrides_genericall (sidMap domainMap guidMap : List (String × String))
    (dn sid ot g : String)
    (hg : dictGet guidMap "ms-mcs-admpwd" = some g)
    (hc : dictGet guidMap "Computer" = none)
    (hig : ignoreSids.contains sid = false)
    (hot : pyStrLower ot = g) :
    aceRelations sidMap domainMap guidMap "Computer" dn true
        ⟨0x05, 0, GENERIC_ALL, objFlagObjectTypePresent, some ot, none, sid⟩
      = [buildRelation dn sid "ReadLAPSPassword" false sidMap domainMap]
    ∧ aceRelations sidMap domainMap guidMap "Computer" dn false
        ⟨0x05, 0, GENERIC_ALL, objFlagObjectTypePresent, some ot, none, sid⟩
      = [buildRelation dn sid "GenericAll" false sidMap domainMap] := by
  have hcomp : pyStrLower "Computer" = "computer" := by decide
  constructor
  · unfold aceRelations
    dsimp only
    rw [if_neg (by decide), if_neg (by simpa using hig)]
    simp only [aceAppliesSkip, aceApplies, hc, hg, getObjectType, Option.getD_some,
      Option.isSome_some, hcomp, hot, hasPriv, hasAceFlag, hasObjFlag,
      GENERIC_ALL, WRITE_DACL, WRITE_OWNER, GENERIC_WRITE, aceFlagInherited,
      aceFlagInheritOnly, objFlagObjectTypePresent, objFlagInheritedTypePresent]
    norm_num
  · unfold aceRelations
    dsimp only
    rw [if_neg (by decide), if_neg (by simpa using hig)]
    simp only [aceAppliesSkip, aceApplies, hc, hg, getObjectType, Option.getD_some,
      Option.isSome_some, hcomp, hot, hasPriv, hasAceFlag, hasObjFlag,
      GENERIC_ALL, WRITE_DACL, WRITE_OWNER, GENERIC_WRITE, aceFlagInherited,
      aceFlagInheritOnly, objFlagObjectTypePresent, objFlagInheritedTypePresent]
    norm_num

theorem C4_witness :
    aceRelations [] [] [("ms-mcs-admpwd", "00000000-0000-0000-0000-00000000dead")]
        "Computer" "CN=PC,DC=X" true
        ⟨0x05, 0, GENERIC_ALL, objFlagObjectTypePresent,
         some "00000000-0000-0000-0000-00000000DEAD", none,
         "S-1-5-21-1-2-3-1104"⟩
      = [buildRelation "CN=PC,DC=X" "S-1-5-21-1-2-3-1104" "ReadLAPSPassword" false [] []]
    ∧ aceRelations [] [] [("ms-mcs-admpwd", "00000000-0000-0000-0000-00000000dead")]
        "Computer" "CN=PC,DC=X" false
        ⟨0x05, 0, GENERIC_ALL, objFlagObjectTypePresent,
         some "00000000-0000-0000-0000-00000000DEAD", none,
         "S-1-5-21-1-2-3-1104"⟩
      = [buildRelation "CN=PC,DC=X" "S-1-5-21-1-2-3-1104" "GenericAll" false [] []] :=
  C4_laps_overrides_genericall [] []
    [("ms-mcs-admpwd", "00000000-0000-0000-0000-00000000dead")]
    "CN=PC,DC=X" "S-1-5-21-1-2-3-1104"
    "00000000-0000-0000-0000-00000000DEAD" "00000000-0000-0000-0000-00000000dead"
    (by decide) (by decide) (by decide) (by decide)

/-- C5 counterexample: an ACCESS_ALLOWED_OBJECT (0x05) ACE with the
DS_CONTROL_ACCESS mask on a Computer entry, with no object-type GUID and
principal SID S-1-5-32-544 — a SID the claim says is excluded — still emits
AllExtendedRights. -/
theorem C5_counterexample :
    aceRelations [] [] [] "Computer" "CN=PC,DC=X" false
        ⟨0x05, 0, 0x100, 0, none, none, "S-1-5-32-544"⟩
      = [⟨"AllExtendedRights", "X-S-1-5-32-544", false, "Group"⟩] := by
  rfl

/-- C5 (amended): for an ACE carrying exactly the DS_CONTROL_ACCESS mask
(0x100), no object-type GUID, and any non-ignored principal SID:
(i) on a Computer entry an ACCESS_ALLOWED_OBJECT (0x05) ACE emits
AllExtendedRights unconditionally — the S-1-5-32-544 / `-512` exclusions do
NOT apply there; (ii) on User and Domain entries the 0x05 ACE emits
AllExtendedRights, followed by the extra extended rights that
`has_extended_right` grants when no object type is present
(ForceChangePassword; GetChanges / GetChangesAll / GetChangesInFilteredSet);
(iii) the SID exclusions live only in the plain ACCESS_ALLOWED (0x00)
branch, where the Computer AllExtendedRights edge is emitted iff the SID is
neither S-1-5-32-544 nor `-512`-suffixed. -/
theorem C5_extended_rights (sidMap domainMap guidMap : List (String × String))
    (dn sid : String) (b : Bool)
    (hig : ignoreSids.contains sid = false) :
    (aceRelations sidMap domainMap guidMap "Computer" dn b
        ⟨0x05, 0, 0x100, 0, none, none, sid⟩
      = [buildRelation dn sid "AllExtendedRights" false sidMap domainMap])
    ∧ (aceRelations sidMap domainMap guidMap "User" dn b
        ⟨0x05, 0, 0x100, 0, none, none, sid⟩
      = [buildRelation dn sid "AllExtendedRights" false sidMap domainMap,
         buildRelation dn sid "ForceChangePassword" false sidMap domainMap])
    ∧ (aceRelations sidMap domainMap guidMap "Domain" dn b
        ⟨0x05, 0, 0x100, 0, none, none, sid⟩
      = [buildRelation dn sid "AllExtendedRights" false sidMap domainMap,
         buildRelation dn sid "GetChanges" false sidMap domainMap,
         buildRelation dn sid "GetChangesAll" false sidMap domainMap,
         buildRelation dn sid "GetChangesInFilteredSet" false sidMap domainMap])
    ∧ (aceRelations sidMap domainMap guidMap "Computer" dn b
        ⟨0x00, 0, 0x100, 0, none, none, sid⟩
      = if sid ≠ "S-1-5-32-544" ∧ ¬ pyEndsWith sid "-512" = true
        then [buildRelation dn sid "AllExtendedRights" false sidMap domainMap]
        else []) := by
  have hcomp : pyStrLower "Computer" = "computer" := by decide
  have huser : pyStrLower "User" = "user" := by decide
  have hdom : pyStrLower "Domain" = "domain" := by decide
  refine ⟨?_, ?_, ?_, ?_⟩
  · unfold aceRelations
    dsimp only
    rw [if_neg (by decide), if_neg (by simpa using hig)]
    simp [hcomp, hasPriv, hasAceFlag, hasObjFlag, hasExtendedRight,
      GENERIC_ALL, WRITE_DACL, WRITE_OWNER, GENERIC_WRITE,
      ADS_RIGHT_DS_CONTROL_ACCESS, ADS_RIGHT_DS_READ_PROP,
      ADS_RIGHT_DS_WRITE_PROP, ADS_RIGHT_DS_SELF,
      aceFlagInherited, aceFlagInheritOnly,
      objFlagObjectTypePresent, objFlagInheritedTypePresent]
  · unfold aceRelations
    dsimp only
    rw [if_neg (by decide), if_neg (by simpa using hig)]
    simp [huser, hasPriv, hasAceFlag, hasObjFlag, hasExtendedRight,
      GENERIC_ALL, WRITE_DACL, WRITE_OWNER, GENERIC_WRITE,
      ADS_RIGHT_DS_CONTROL_ACCESS, ADS_RIGHT_DS_READ_PROP,
      ADS_RIGHT_DS_WRITE_PROP, ADS_RIGHT_DS_SELF,
      aceFlagInherited, aceFlagInheritOnly,
      objFlagObjectTypePresent, objFlagInheritedTypePresent]
  · unfold aceRelations
    dsimp only
    rw [if_neg (by decide), if_neg (by simpa using hig)]
    simp [hdom, hasPriv, hasAceFlag, hasObjFlag, hasExtendedRight,
      GENERIC_ALL, WRITE_DACL, WRITE_OWNER, GENERIC_WRITE,
      ADS_RIGHT_DS_CONTROL_ACCESS, ADS_RIGHT_DS_READ_PROP,
      ADS_RIGHT_DS_WRITE_PROP, ADS_RIGHT_DS_SELF,
      aceFlagInherited, aceFlagInheritOnly,
      objFlagObjectTypePresent, objFlagInheritedTypePresent]
  · unfold aceRelations
    dsimp only
    rw [if_neg (by decide), if_neg (by simpa using hig), if_neg (by decide)]
    by_cases h544 : sid = "S-1-5-32-544"
    · simp [h544, hcomp, hasPriv, hasAceFlag, GENERIC_ALL, WRITE_DACL, WRITE_OWNER,
        ADS_RIGHT_DS_CONTROL_ACCESS, ADS_RIGHT_DS_WRITE_PROP, aceFlagInherited,
        aceFlagInheritOnly, Nat.reduceAnd]
    · by_cases h512 : pyEndsWith sid "-512" = true
      · simp [h544, h512, hcomp, hasPriv, hasAceFlag, GENERIC_ALL, WRITE_DACL,
          WRITE_OWNER, ADS_RIGHT_DS_CONTROL_ACCESS, ADS_RIGHT_DS_WRITE_PROP,
          aceFlagInherited, aceFlagInheritOnly, Nat.reduceAnd]
      · simp [h544, h512, hcomp, hasPriv, hasAceFlag, GENERIC_ALL, WRITE_DACL,
          WRITE_OWNER, ADS_RIGHT_DS_CONTROL_ACCESS, ADS_RIGHT_DS_WRITE_PROP,
          aceFlagInherited, aceFlagInheritOnly, Nat.reduceAnd]

theorem C5_witness :
    (aceRelations [] [] [] "Computer" "CN=PC,DC=X" false
        ⟨0x05, 0, 0x100, 0, none, none, "S-1-5-21-1-2-3-1104"⟩
      = [buildRelation "CN=PC,DC=X" "S-1-5-21-1-2-3-1104" "AllExtendedRights" false [] []])
    ∧ (aceRelations [] [] [] "User" "CN=PC,DC=X" false
        ⟨0x05, 0, 0x100, 0, none, none, "S-1-5-21-1-2-3-1104"⟩
      = [buildRelation "CN=PC,DC=X" "S-1-5-21-1-2-3-1104" "AllExtendedRights" false [] [],
         buildRelation "CN=PC,DC=X" "S-1-5-21-1-2-3-1104" "ForceChangePassword" false [] []])
    ∧ (aceRelations [] [] [] "Domain" "CN=PC,DC=X" false
        ⟨0x05, 0, 0x100, 0, none, none, "S-1-5-21-1-2-3-1104"⟩
      = [buildRelation "CN=PC,DC=X" "S-1-5-21-1-2-3-1104" "AllExtendedRights" false [] [],
         buildRelation "CN=PC,DC=X" "S-1-5-21-1-2-3-1104" "GetChanges" false [] [],
         buildRelation "CN=PC,DC=X" "S-1-5-21-1-2-3-1104" "GetChangesAll" false [] [],
         buildRelation "CN=PC,DC=X" "S-1-5-21-1-2-3-1104" "GetChangesInFilteredSet" false [] []])
    ∧ (aceRelations [] [] [] "Computer" "CN=PC,DC=X" false
        ⟨0x00, 0, 0x100, 0, none, none, "S-1-5-21-1-2-3-1104"⟩
      = if "S-1-5-21-1-2-3-1104" ≠ "S-1-5-32-544"
           ∧ ¬ pyEndsWith "S-1-5-21-1-2-3-1104" "-512" = true
        then [buildRelation "CN=PC,DC=X" "S-1-5-21-1-2-3-1104" "AllExtendedRights" false [] []]
        else []) :=
  C5_extended_rights [] [] [] "CN=PC,DC=X" "S-1-5-21-1-2-3-1104" false (by decide)
